import Mathlib

/-!
Verification development for the `supdate` packaging tool.

The Python sources under `supdate/` are shallowly embedded below.  JSON
documents are modelled by the inductive `Json`; Python `dict`s are modelled as
insertion-ordered association lists (`List (String × Json)` and friends) with
the usual dict semantics: inserting an existing key replaces the value in
place, a new key is appended at the end.  Python exceptions (assertion errors,
`TypeError`s, `ValueError`s, missing files) are modelled with `Except String`.
`sha1` content hashes are modelled as the hashed content itself (a
collision-free hash), and a file's byte size as a deterministic function of
that content.
-/

namespace Supdate

/-- A JSON value.  Numbers are restricted to integers: no numeric computation
is performed on JSON numbers anywhere in the embedded code. -/
inductive Json where
  | null : Json
  | bool : Bool → Json
  | num : Int → Json
  | str : String → Json
  | arr : List Json → Json
  | obj : List (String × Json) → Json

/-- Python `dict.__setitem__` on an insertion-ordered association list:
replace in place when the key exists, append otherwise. -/
def dictInsert {α : Type} (m : List (String × α)) (k : String) (v : α) :
    List (String × α) :=
  if m.any (fun e => e.1 = k) then
    m.map (fun e => if e.1 = k then (k, v) else e)
  else
    m ++ [(k, v)]

/-- Python `dict.update`: apply `dictInsert` for every entry of `b` in order. -/
def dictUpdate {α : Type} (a b : List (String × α)) : List (String × α) :=
  b.foldl (fun m e => dictInsert m e.1 e.2) a

/-- Python `dict(...)` built from an iterable of key/value pairs
(later values win, position of first insertion is kept). -/
def dictOfList {α : Type} (xs : List (String × α)) : List (String × α) :=
  dictUpdate [] xs

/-- Python dict lookup `m.get(k)` (first — and only — occurrence). -/
def dictGet {α : Type} (m : List (String × α)) (k : String) : Option α :=
  (m.find? (fun e => e.1 = k)).map (fun e => e.2)

/-- Python `str.join` over a list of strings. -/
def pyJoin (sep : String) : List String → String
  | [] => ""
  | [x] => x
  | x :: y :: xs => x ++ sep ++ pyJoin sep (y :: xs)

/-!
Python string methods, implemented over character lists by structural
(fuel-based) recursion so that every embedded function evaluates inside the
kernel.
-/

/-- `str.split(sep)` body: split `xs` at every occurrence of the non-empty
separator, fuelled by the input length. -/
def splitGo (sep : List Char) : Nat → List Char → List (List Char)
  | 0, xs => [xs]
  | fuel + 1, xs =>
    match xs with
    | [] => [[]]
    | x :: rest =>
      if sep.isPrefixOf xs then
        [] :: splitGo sep fuel (xs.drop sep.length)
      else
        match splitGo sep fuel rest with
        | [] => [[x]]
        | y :: ys => (x :: y) :: ys

/-- Python `str.split(sep)` with a non-empty separator (also the behaviour
of `pathlib`'s `/`-splitting used here). -/
def pySplit (s sep : String) : List String :=
  if sep = "" then [s]
  else (splitGo sep.toList (s.toList.length + 1) s.toList).map String.mk

/-- `str.replace(old, new)` body, fuelled by the input length. -/
def replaceGo (old new : List Char) : Nat → List Char → List Char
  | 0, xs => xs
  | _ + 1, [] => []
  | fuel + 1, x :: rest =>
    if old.isPrefixOf (x :: rest) then
      new ++ replaceGo old new fuel ((x :: rest).drop old.length)
    else
      x :: replaceGo old new fuel rest

/-- Python `str.replace(old, new)` with a non-empty `old`. -/
def pyReplace (s old new : String) : String :=
  if old = "" then s
  else String.mk (replaceGo old.toList new.toList (s.toList.length + 1) s.toList)

/-- Python `str.strip()` (the inputs stripped here only carry plain
spaces). -/
def pyStrip (s : String) : String :=
  String.mk (((s.toList.dropWhile (fun c => c = ' ')).reverse.dropWhile
    (fun c => c = ' ')).reverse)

/-- The first character of a string (`s[0]`), if any. -/
def firstChar (s : String) : Option Char := s.toList.head?

/-- The last character of a string (`s[-1]`), if any. -/
def lastChar (s : String) : Option Char := s.toList.getLast?

/-- `s[1:]`. -/
def strDropFirst (s : String) : String := String.mk (s.toList.drop 1)

/-- `s[:-1]`. -/
def strDropLast (s : String) : String := String.mk s.toList.dropLast

/-- The numeric value of a non-empty all-digit character list. -/
def digitsToNat? (xs : List Char) : Option Nat :=
  if xs.isEmpty ∨ ¬ (xs.all Char.isDigit) then none
  else some (xs.foldl (fun n c => n * 10 + (c.toNat - 48)) 0)

/-- Python `int(s)` for plain decimal literals with an optional minus sign
(whitespace, `+` and underscores do not occur in this repository's data). -/
def pyToInt? (s : String) : Option Int :=
  match s.toList with
  | '-' :: rest => (digitsToNat? rest).map (fun n => -(n : Int))
  | xs => (digitsToNat? xs).map Int.ofNat

/-- `profile.LibraryDependency` (a `NamedTuple`): a parsed
`group:artifact:version[:tag]` coordinate. -/
structure LibraryDependency where
  group : String
  artifact : String
  version : String
  tag : Option String := none
deriving DecidableEq

/-- `LibraryDependency.as_path`: `'-'.join(filter(None, self[1:]))` drops the
`None` tag and any empty component; the directories are the dot-split group,
the artifact and the version. -/
def LibraryDependency.as_path (d : LibraryDependency) : String :=
  (String.intercalate "/"
    [pyReplace d.group "." "/", d.artifact, d.version,
     String.intercalate "-"
       (([d.artifact, d.version, d.tag.getD ""]).filter (fun s => s ≠ "")) ++ ".jar"])

/-- `profile.LibraryArtifactDownload`. -/
structure LibraryArtifactDownload where
  size : Option Int := none
  sha1 : Option String := none
  path : Option String := none
  url : Option String := none
  extra : List (String × Json) := []

/-- `profile.LibraryDownloads`. -/
structure LibraryDownloads where
  artifact : Option LibraryArtifactDownload := none
  classifiers : Option Json := none
  extra : List (String × Json) := []

/-- `profile.Library`.  The private `_dependency` attribute is the `dep`
field (underscore-prefixed attributes are not serialized); `extra` holds the
dynamic attributes a `Namespace` keeps for undeclared JSON keys. -/
structure Library where
  name : String
  url : Option String := none
  checksums : Option (List String) := none
  serverreq : Option Bool := none
  clientreq : Option Bool := none
  downloads : Option LibraryDownloads := none
  dep : Option LibraryDependency := none
  extra : List (String × Json) := []

/-- `Library.__post_init__`: when `_dependency` is unset, assert the name has
2 or 3 colons and split it.  As in the source, the four-part branch binds the
tag but then constructs `LibraryDependency(group, artifact, version)` without
it, so the tag is dropped. -/
def Library.postInit (l : Library) : Except String Library :=
  match l.dep with
  | some _ => .ok l
  | none =>
    match pySplit l.name ":" with
    | [group, artifact, version] =>
      .ok { l with dep := some ⟨group, artifact, version, none⟩ }
    | [group, artifact, version, _tag] =>
      .ok { l with dep := some ⟨group, artifact, version, none⟩ }
    | _ => .error ("AssertionError: " ++ l.name)

/-- `Library.path` (property): `self._dependency.as_path()`. -/
def Library.path (l : Library) : Except String String :=
  match l.dep with
  | some d => .ok d.as_path
  | none => .error "AttributeError: _dependency is None"

/-- `Library.group` (property). -/
def Library.group (l : Library) : Except String String :=
  match l.dep with
  | some d => .ok d.group
  | none => .error "AttributeError: _dependency is None"

/-- `Library.artifact` (property). -/
def Library.artifact (l : Library) : Except String String :=
  match l.dep with
  | some d => .ok d.artifact
  | none => .error "AttributeError: _dependency is None"

/-- The `arguments` JSON object of a profile: merge and
`build_minecraft_arguments` only ever touch its `"game"` list; the remaining
keys (e.g. `"jvm"`) are carried opaquely. -/
structure Arguments where
  game : List Json
  rest : List (String × Json) := []

/-- `profile.Profile`.  Scalar fields typed `str` in the source may hold
`None` in Python and are therefore `Option String` here; `extra` holds the
dynamic attributes for undeclared JSON keys (kept after the declared fields,
matching `__dict__` insertion order). -/
structure Profile where
  id : Option String
  time : Option String
  releaseTime : Option String
  type : Option String
  mainClass : Option String
  logging : List (String × Json) := []
  arguments : Option Arguments := none
  minecraftArguments : Option String := none
  minimumLauncherVersion : Option Json := none
  libraries : List Library := []
  jar : Option String := none
  inheritsFrom : Option String := none
  assetIndex : Option Json := none
  downloads : Option Json := none
  assets : Option String := none
  extra : List (String × Json) := []

/-- The string-entry filter of `build_minecraft_arguments`'s generator
expression (`arg for arg in arguments["game"] if isinstance(arg, str)`). -/
def jsonStr? (j : Json) : Option String :=
  match j with
  | Json.str s => some s
  | _ => none

/-- `Profile.build_minecraft_arguments`: the string-valued entries of
`arguments["game"]` joined by single spaces. -/
def Profile.build_minecraft_arguments (args : Arguments) : String :=
  pyJoin " " (args.game.filterMap jsonStr?)

/-- `Profile.__post_init__`: if `arguments` is not `None`, recompute
`minecraftArguments` from it. -/
def Profile.postInit (p : Profile) : Profile :=
  match p.arguments with
  | some a => { p with minecraftArguments := some (Profile.build_minecraft_arguments a) }
  | none => p

/-- The `libraries` branch of `Profile.merge`:
`list({library.name: library for library in chain(other.libraries, self.libraries)}.values())`.
A dict comprehension keeps the position of the first insertion of a key and
the value of its last insertion. -/
def dedupLibraries (libs : List Library) : List Library :=
  (dictOfList (libs.map (fun l => (l.name, l)))).map (fun e => e.2)

/-- The generic `isinstance` branches of `Profile.merge` for a dynamically
typed field value: lists extend the base's list, dicts shallow-update the
base's dict (`AttributeError` when the base value cannot receive them),
anything else overwrites. -/
def mergeJsonField (selfVal : Option Json) (v : Json) : Except String (Option Json) :=
  match v with
  | Json.arr xs =>
    match selfVal with
    | some (Json.arr ys) => .ok (some (Json.arr (ys ++ xs)))
    | _ => .error "AttributeError: object has no attribute 'extend'"
  | Json.obj xs =>
    match selfVal with
    | some (Json.obj ys) => .ok (some (Json.obj (dictUpdate ys xs)))
    | _ => .error "AttributeError: object has no attribute 'update'"
  | _ => .ok (some v)

/-- One undeclared (dynamic) attribute of the overlay processed by
`Profile.merge`'s generic branches against the base's dynamic attributes
(`self[key]` raises `KeyError` when the base has no such attribute and the
value is a list or dict). -/
def mergeExtraEntry (ex : List (String × Json)) (k : String) (v : Json) :
    Except String (List (String × Json)) :=
  match v with
  | Json.arr xs =>
    match dictGet ex k with
    | some (Json.arr ys) => .ok (dictInsert ex k (Json.arr (ys ++ xs)))
    | some _ => .error "AttributeError: object has no attribute 'extend'"
    | none => .error ("KeyError: " ++ k)
  | Json.obj xs =>
    match dictGet ex k with
    | some (Json.obj ys) => .ok (dictInsert ex k (Json.obj (dictUpdate ys xs)))
    | some _ => .error "AttributeError: object has no attribute 'update'"
    | none => .error ("KeyError: " ++ k)
  | _ => .ok (dictInsert ex k v)

/-- The first stage of `Profile.merge(self, other)`'s loop over
`other.items()` (declaration order): the five required fields — always
yielded, their dataclass `default` being the `MISSING` sentinel, even when
`None` — then `logging` (always yielded, factory default), `arguments` and
`minecraftArguments` (yielded only when not `None`). -/
def Profile.mergeFront (self other : Profile) : Except String Profile := do
  let logging' := dictUpdate self.logging other.logging
  let arguments' ← match other.arguments with
    | none => pure self.arguments
    | some oargs =>
      match self.arguments with
      | none => Except.error "TypeError: 'NoneType' object is not subscriptable"
      | some sargs => pure (some { sargs with game := sargs.game ++ oargs.game })
  let minecraftArguments' ← match other.minecraftArguments with
    | none => pure self.minecraftArguments
    | some v =>
      match arguments' with
      | some _ =>
        match self.minecraftArguments with
        | some m => pure (some (m ++ " " ++ v))
        | none => Except.error "TypeError: unsupported operand type(s) for +=: 'NoneType' and 'str'"
      | none => pure (some v)
  pure { self with id := other.id, time := other.time,
                   releaseTime := other.releaseTime, type := other.type,
                   mainClass := other.mainClass, logging := logging',
                   arguments := arguments',
                   minecraftArguments := minecraftArguments' }

/-- The remaining stage of the loop: `minimumLauncherVersion` (when not
`None`), `libraries` (always yielded, with the dict-comprehension
deduplication), the scalar/JSON-valued fields (when not `None`), and finally
the dynamic attributes, always, in insertion order.  Each step computes the
field's post-loop value; the error order matches the statement order of the
Python loop. -/
def Profile.mergeBack (s other : Profile) : Except String Profile := do
  let minimumLauncherVersion' ← match other.minimumLauncherVersion with
    | none => pure s.minimumLauncherVersion
    | some v => mergeJsonField s.minimumLauncherVersion v
  let libraries' := dedupLibraries (other.libraries ++ s.libraries)
  let jar' := match other.jar with
    | none => s.jar
    | some v => some v
  let inheritsFrom' := match other.inheritsFrom with
    | none => s.inheritsFrom
    | some v => some v
  let assetIndex' ← match other.assetIndex with
    | none => pure s.assetIndex
    | some v => mergeJsonField s.assetIndex v
  let downloads' ← match other.downloads with
    | none => pure s.downloads
    | some v => mergeJsonField s.downloads v
  let assets' := match other.assets with
    | none => s.assets
    | some v => some v
  let ex ← other.extra.foldlM (fun ex e => mergeExtraEntry ex e.1 e.2) s.extra
  pure { s with minimumLauncherVersion := minimumLauncherVersion',
                libraries := libraries', jar := jar',
                inheritsFrom := inheritsFrom', assetIndex := assetIndex',
                downloads := downloads', assets := assets', extra := ex }

/-- The field updates `Profile.merge(self, other)` applies to `self`: the
two stages of the `other.items()` loop in sequence.  The result is the
post-call state of `self`. -/
def Profile.mergeState (self other : Profile) : Except String Profile := do
  let s ← Profile.mergeFront self other
  Profile.mergeBack s other

/-- `Profile.merge(self, other)`: the Python method mutates `self` in place
and falls off the end, returning `None`.  The result models the pair of the
post-call state of `self` and that return value. -/
def Profile.merge (self other : Profile) : Except String (Profile × Option Profile) :=
  (Profile.mergeState self other).map (fun s => (s, none))

/-- An overlay profile all of whose fields are null/empty. -/
def nullProfile : Profile :=
  { id := none, time := none, releaseTime := none, type := none,
    mainClass := none }

/-- `ForgeBase.full_profile` (forge.py): assert the forge profile inherits
from the vanilla version, call `profile.merge(fp)` on the vanilla profile,
clear `inheritsFrom` on the (mutated) vanilla profile and return it. -/
def full_profile (vanilla fp : Profile) (mc_version : String) : Except String Profile := do
  if fp.inheritsFrom = some mc_version then
    let r ← Profile.merge vanilla fp
    pure { r.1 with inheritsFrom := none }
  else
    Except.error "AssertionError: inheritsFrom mismatch"

/-- distutils `LooseVersion`, restricted to dotted numeric version strings
such as `"1.7.10"`: the list of numeric components.  (The full class also
accepts letter components; none appear in this repository's range tables or
forge/vanilla version strings, and parsing fails on them here.) -/
def parseLooseVersion (s : String) : Option (List Nat) :=
  (pySplit s ".").mapM (fun p => digitsToNat? p.toList)

/-- Python list comparison `<` on numeric component lists: lexicographic,
a strict prefix is smaller. -/
def versionLt : List Nat → List Nat → Bool
  | [], [] => false
  | [], _ :: _ => true
  | _ :: _, [] => false
  | a :: as, b :: bs => if a < b then true else if b < a then false else versionLt as bs

/-- `utils.VersionRange` / `versions.VersionRange` (the two files carry an
identical class).  `empty` is the derived `__empty` flag. -/
structure VersionRange where
  left : Option (List Nat)
  right : Option (List Nat)
  lopen : Bool
  ropen : Bool
  empty : Bool
deriving DecidableEq

/-- `VersionRange.lclosed` (property). -/
def VersionRange.lclosed (r : VersionRange) : Bool := !r.lopen

/-- `VersionRange.rclosed` (property). -/
def VersionRange.rclosed (r : VersionRange) : Bool := !r.ropen

/-- `VersionRange.__init__`: split on `","`, strip, check the bracket
characters, parse each bound (`""` means unbounded; the `versions[i] == "*"`
comparisons are unreachable because the bracket check already matched), and
compute `__empty = (left is None) and (right is None) and (lopen or ropen)`. -/
def VersionRange.parse (vrange : String) : Except String VersionRange :=
  match (pySplit vrange ",").map pyStrip with
  | [v0, v1] =>
    if v0 = "" ∨ v1 = "" then
      .error "IndexError: string index out of range"
    else if (firstChar v0 = some '[' ∨ firstChar v0 = some '(') ∧
            (lastChar v1 = some ']' ∨ lastChar v1 = some ')') then
      let lstr := strDropFirst v0
      let rstr := strDropLast v1
      let lopen := firstChar v0 = some '('
      let ropen := lastChar v1 = some ')'
      match (if lstr = "" ∨ v0 = "*" then some none else (parseLooseVersion lstr).map some),
            (if rstr = "" ∨ v1 = "*" then some none else (parseLooseVersion rstr).map some) with
      | some left, some right =>
        .ok { left := left, right := right, lopen := lopen, ropen := ropen,
              empty := left.isNone && right.isNone && (lopen || ropen) }
      | _, _ => .error "unsupported version component"
    else
      .error "The range must be given by the form of mathematical intervals."
  | _ => .error (vrange ++ " is not a valid version range.")

/-- `VersionRange.__contains__`. -/
def VersionRange.containsV (r : VersionRange) (item : List Nat) : Bool :=
  if r.empty then false
  else
    (match r.left with
     | none => true
     | some L => !(versionLt item L || (r.lopen && item = L))) &&
    (match r.right with
     | none => true
     | some R => !(versionLt R item || (r.ropen && item = R)))

/-- Python `str.partition` with a single-character separator. -/
def pyPartition (s sep : String) : String × String × String :=
  match pySplit s sep with
  | [] => (s, "", "")
  | [x] => (x, "", "")
  | x :: rest => (x, sep, String.intercalate sep rest)

/-- `SUpdate.calc_version` (cli.py; `versions.calc_next_version` is the same
function): `today` stands for `datetime.now().strftime("%Y%m%d")`.
`int(minor or '-1')` is modelled with `String.toInt?` (it raises on a
non-numeric non-empty minor). -/
def calc_version (today : String) (prev_version : Option String) : Except String String :=
  match prev_version with
  | none => .ok (today ++ ".0")
  | some pv =>
    let (major, _sep, minor) := pyPartition pv "."
    if major ≠ today then .ok (today ++ ".0")
    else
      match pyToInt? (if minor = "" then "-1" else minor) with
      | some n => .ok (today ++ "." ++ toString (n + 1))
      | none => .error "ValueError: invalid literal for int()"

/-- `urllib.parse.urljoin`, modelled for the uses in this code: an absolute
base URL and a relative path.  A base ending in `/` has the path appended; a
base whose path is empty gains a `/`; otherwise the last path segment is
replaced.  (Scheme/netloc edge cases of the stdlib function are not
reproduced; no claim inspects a URL string.) -/
def urljoin (base rel : String) : String :=
  if lastChar base = some '/' then base ++ rel
  else
    match pySplit base "://" with
    | [scheme, hostpath] =>
      if (pySplit hostpath "/").length ≤ 1 then base ++ "/" ++ rel
      else scheme ++ "://" ++ String.intercalate "/" ((pySplit hostpath "/").dropLast) ++ "/" ++ rel
    | _ => rel

/-- A file tree for the Package Builder: path → file content (a byte string).
The `sha1` of a file is modelled as its content (a collision-free hash) and
its `stat().st_size` as the content's length. -/
abbrev FS : Type := List (String × String)

/-- `Path.exists()`. -/
def FS.exists (fs : FS) (p : String) : Bool := fs.any (fun e => e.1 = p)

/-- Read a file's content. -/
def FS.get (fs : FS) (p : String) : Option String := dictGet fs p

/-- `utils.sha1_hexdigest` (the file-is-not-a-directory check cannot fail in
this model). -/
def sha1_hexdigest (fs : FS) (file : String) : Except String String :=
  match fs.get file with
  | some c => .ok c
  | none => .error ("FileNotFoundError: " ++ file)

/-- `utils.is_same_file`: `False` when either file is missing, otherwise
compare content hashes. -/
def is_same_file (fs : FS) (a b : String) : Bool :=
  match fs.get a, fs.get b with
  | some ca, some cb => ca = cb
  | _, _ => false

/-- `package.PackageFile` (with the modelled hash). -/
structure PackageFile where
  size : Nat
  sha1 : String
  path : String
  url : String
deriving DecidableEq

/-- `PackageBuilder.build`: for each selected `(relative path, source file)`
pair in selection order, copy the source over the destination when
`is_same_file` holds, then append a `PackageFile` built from the source.
Returns the updated file tree and the appended manifest entries. -/
def PackageBuilder.build (files : List (String × String))
    (package_folder package_url : String) (fs : FS) :
    Except String (FS × List PackageFile) :=
  files.foldlM (fun (acc : FS × List PackageFile) pf => do
    let (path, file) := pf
    let (fs, out) := acc
    let target_file := package_folder ++ "/" ++ path
    let fs := if is_same_file fs file target_file then
        match fs.get file with
        | some c => dictInsert fs target_file c
        | none => fs
      else fs
    match fs.get file with
    | none => Except.error ("FileNotFoundError: " ++ file)
    | some c =>
      pure (fs, out ++ [{ size := c.length, sha1 := c, path := path,
                          url := urljoin package_url path }]))
    (fs, [])

/-- The content of one `modpack.json`: the `Package` fields `cmd_update`
reads or rewrites (`id`, `name`, `version`, `time`) plus the rest of the
serialized document carried opaquely.  Its modelled `sha1` is the value
itself and its byte size a deterministic function of the value. -/
structure Pack where
  id : String
  name : String
  version : String
  time : String
  rest : String
deriving DecidableEq

/-- The modelled `stat().st_size` of a serialized `Pack`. -/
def Pack.byteSize (p : Pack) : Nat :=
  p.id.length + p.name.length + p.version.length + p.time.length + p.rest.length

/-- `index.IndexPackage` (with the modelled hash). -/
structure IndexPackage where
  name : String
  version : String
  time : String
  url : String
  path : String
  sha1 : Pack
  size : Nat
deriving DecidableEq

/-- `IndexPackage.from_package`. -/
def IndexPackage.from_package (package : Pack) (package_url : String) : IndexPackage :=
  { name := package.name, version := package.version, time := package.time,
    url := package_url, path := "modpack.json", sha1 := package,
    size := package.byteSize }

/-- `index.Launcher`. -/
structure Launcher where
  version : String
  url : String
deriving DecidableEq

/-- `index.IndexPackageManifest`.  `packages` is an insertion-ordered dict. -/
structure IndexPackageManifest where
  version : String
  time : String
  launcher : Launcher
  packages : List (String × IndexPackage) := []
deriving DecidableEq

/-- The slice of the filesystem `cmd_update` touches: the subdirectories of
`packages_path` (each with its `modpack.json` content, when present;
non-directory entries are skipped before this model starts) and
`packages/index.json`. -/
structure PackagesTree where
  dirs : List (String × Option Pack)
  indexFile : Option IndexPackageManifest
deriving DecidableEq

/-- `SUpdate.get_latest_manifest`: read `index.json` or synthesize a first
manifest.  `today` is `datetime.now().strftime("%Y%m%d")` and `now` the
instance's `current_datetime`. -/
def get_latest_manifest (st : PackagesTree) (today now : String) :
    Except String IndexPackageManifest :=
  match st.indexFile with
  | some m => .ok m
  | none => do
    let v ← calc_version today none
    .ok { version := v, time := now,
          launcher := { version := "0.0.0", url := "https://example.com/" },
          packages := [] }

/-- The body of `cmd_update`'s `for package_path in self.packages_path.iterdir()`
loop: a directory without `modpack.json` is skipped with a warning; otherwise
the prior `IndexPackage` is carried forward when its stored hash equals the
current hash, else the package is rewritten with the bumped version/time,
persisted and summarized afresh; the manifest dict gains the entry under the
package's id. -/
def cmdUpdateStep (prev : IndexPackageManifest)
    (next_version next_time packages_url : String)
    (acc : List (String × Option Pack) × List (String × IndexPackage))
    (entry : String × Option Pack) :
    List (String × Option Pack) × List (String × IndexPackage) :=
  let (dirs, pkgs) := acc
  match entry with
  | (dname, none) => (dirs ++ [(dname, none)], pkgs)
  | (dname, some package) =>
    match dictGet prev.packages package.id with
    | some prev_ip =>
      if prev_ip.sha1 = package then
        (dirs ++ [(dname, some package)], dictInsert pkgs package.id prev_ip)
      else
        let package' := { package with version := next_version, time := next_time }
        let ip := IndexPackage.from_package package' (urljoin packages_url (dname ++ "/"))
        (dirs ++ [(dname, some package')], dictInsert pkgs package'.id ip)
    | none =>
      let package' := { package with version := next_version, time := next_time }
      let ip := IndexPackage.from_package package' (urljoin packages_url (dname ++ "/"))
      (dirs ++ [(dname, some package')], dictInsert pkgs package'.id ip)

/-- `SUpdate.cmd_update`: build the next manifest by folding
`cmdUpdateStep` over the package directories.  Returns the filesystem after
the run together with the written manifest. -/
def cmd_update (st : PackagesTree) (today now packages_url : String) :
    Except String (PackagesTree × IndexPackageManifest) := do
  let prev ← get_latest_manifest st today now
  let next_version ← calc_version today (some prev.version)
  let next_time := now
  let (dirs', pkgs) :=
    st.dirs.foldl (cmdUpdateStep prev next_version next_time packages_url) ([], [])
  let manifest : IndexPackageManifest :=
    { version := next_version, time := next_time, launcher := prev.launcher,
      packages := pkgs }
  return ({ dirs := dirs', indexFile := some manifest }, manifest)

/-- Derived view of one `cmd_update` loop iteration: the state of the
package directory after the run (its `modpack.json` rewritten exactly when
no prior `IndexPackage` hash-matches it). -/
def updEntry (prev : IndexPackageManifest) (nv nt : String)
    (e : String × Option Pack) : String × Option Pack :=
  match e with
  | (n, none) => (n, none)
  | (n, some c) =>
    match dictGet prev.packages c.id with
    | some ip =>
      if ip.sha1 = c then (n, some c)
      else (n, some { c with version := nv, time := nt })
    | none => (n, some { c with version := nv, time := nt })

/-- Derived view of one `cmd_update` loop iteration: the manifest entry the
iteration contributes (none for a directory without `modpack.json`). -/
def updIp (prev : IndexPackageManifest) (nv nt url : String)
    (e : String × Option Pack) : Option (String × IndexPackage) :=
  match e with
  | (_, none) => none
  | (n, some c) =>
    match dictGet prev.packages c.id with
    | some ip =>
      if ip.sha1 = c then some (c.id, ip)
      else some (c.id, IndexPackage.from_package
        { c with version := nv, time := nt } (urljoin url (n ++ "/")))
    | none => some (c.id, IndexPackage.from_package
        { c with version := nv, time := nt } (urljoin url (n ++ "/")))

/-- The manifest entries a directory listing induces against a fixed
packages map: one entry per `modpack.json`, looked up by its id. -/
def canonEntries (pkgs : List (String × IndexPackage))
    (ds : List (String × Option Pack)) : List (String × IndexPackage) :=
  ds.filterMap (fun e => e.2.bind (fun c => (dictGet pkgs c.id).map (fun ip => (c.id, ip))))

/-- A file tree for the Libraries Builder: path → (size, sha1). -/
structure FileMeta where
  size : Nat
  sha1 : String
deriving DecidableEq

/-- The jar tree visible to `LibrariesBuilder`. -/
abbrev FSm : Type := List (String × FileMeta)

/-- `Path.exists()` on the jar tree. -/
def FSm.exists (fs : FSm) (p : String) : Bool := fs.any (fun e => e.1 = p)

/-- Look a jar file up. -/
def FSm.get (fs : FSm) (p : String) : Option FileMeta := dictGet fs p

/-- `Path.stem` of a `/`-separated path string: the file name without its
last `.`-suffix. -/
def pathStem (p : String) : String :=
  let fname := ((pySplit p "/").getLast?).getD ""
  let comps := pySplit fname "."
  if comps.length ≤ 1 then fname else String.intercalate "." comps.dropLast

/-- `Path.with_stem`: replace the file name's stem, keeping directory and
suffix. -/
def pathWithStem (p newStem : String) : String :=
  let parts := pySplit p "/"
  let fname := (parts.getLast?).getD ""
  let comps := pySplit fname "."
  let ext := if comps.length ≤ 1 then "" else "." ++ ((comps.getLast?).getD "")
  String.intercalate "/" (parts.dropLast ++ [newStem ++ ext])

/-- Python `list.insert` (clamps an out-of-range index, unlike
`List.insertIdx`). -/
def pyInsert {α : Type} (xs : List α) (i : Nat) (x : α) : List α :=
  xs.take i ++ [x] ++ xs.drop i

/-- Python truthiness of a `clientreq`/`serverreq` value (`None` is falsy). -/
def truthy (b : Option Bool) : Bool := b.getD false

/-- Python truthiness of an optional raw JSON value (`None`, `[]`, `{}`,
`""`, `0`, `false` and `null` are falsy). -/
def jsonTruthy (j : Option Json) : Bool :=
  match j with
  | none => false
  | some Json.null => false
  | some (Json.bool b) => b
  | some (Json.num n) => n ≠ 0
  | some (Json.str s) => s ≠ ""
  | some (Json.arr xs) => !xs.isEmpty
  | some (Json.obj xs) => !xs.isEmpty

/-- `Library.version` (property). -/
def Library.version (l : Library) : Except String String :=
  match l.dep with
  | some d => .ok d.version
  | none => .error "AttributeError: _dependency is None"

/-- `libraries.is_forge_universal`. -/
def is_forge_universal (library : Library) : Except String Bool := do
  let g ← library.group
  let a ← library.artifact
  pure (g = "net.minecraftforge" && a = "forge")

/-- `forge.Form` (a `namedtuple`): the pair of forge file-name templates. -/
structure Form where
  standard : String
  full : String
deriving DecidableEq

/-- `forge.DEFAULT_VERSION_FORM`. -/
def DEFAULT_VERSION_FORM : Form :=
  { standard := "forge-{mc}-{forge}", full := "forge-{mc}-{forge}-{type}" }

/-- `forge.SPECIFIC_VERSION_FORMS` (an ordered dict of range string → form). -/
def SPECIFIC_VERSION_FORMS : List (String × Form) :=
  [("[1.7, 1.7.10]",
    { standard := "forge-{mc}-{forge}-{mc}", full := "forge-{mc}-{forge}-{mc}-{type}" }),
   ("[1.19, 1.19.4]",
    { standard := "{mc}-{forge}", full := DEFAULT_VERSION_FORM.full })]

/-- `forge.get_version_form`: first matching range wins, else the default
form.  The version string is compared through `LooseVersion` (numeric model,
see `parseLooseVersion`). -/
def get_version_form (v : String) : Except String Form := do
  let vv ← match parseLooseVersion v with
    | some vv => pure vv
    | none => Except.error ("unsupported version string: " ++ v)
  let rec go : List (String × Form) → Except String Form
    | [] => .ok DEFAULT_VERSION_FORM
    | (rs, form) :: rest => do
      let r ← VersionRange.parse rs
      if r.containsV vv then pure form else go rest
  go SPECIFIC_VERSION_FORMS

/-- `forge.ForgeType`. -/
inductive ForgeType where
  | installer : ForgeType
  | universal : ForgeType
deriving DecidableEq

/-- `ForgeType.value`. -/
def ForgeType.value : ForgeType → String
  | .installer => "installer"
  | .universal => "universal"

/-- `forge.ForgeBase`. -/
structure ForgeBase where
  mc_version : String
  forge_version : String
  directory : String
  type : ForgeType
deriving DecidableEq

/-- `ForgeBase.form` (property). -/
def ForgeBase.form (fb : ForgeBase) : Except String Form :=
  get_version_form fb.mc_version

/-- `ForgeBase.standard_name` (property): literal placeholder substitution. -/
def ForgeBase.standard_name (fb : ForgeBase) : Except String String := do
  let f ← fb.form
  pure (pyReplace (pyReplace f.standard "{mc}" fb.mc_version) "{forge}" fb.forge_version)

/-- `ForgeBase.get_fullname_with`. -/
def ForgeBase.get_fullname_with (fb : ForgeBase) (t : ForgeType) : Except String String := do
  let f ← fb.form
  pure (pyReplace (pyReplace (pyReplace f.full "{mc}" fb.mc_version) "{forge}" fb.forge_version) "{type}" t.value)

/-- `ForgeBase.universal` (property): the standard-name jar in the forge
directory if it exists, else the `-universal` full-name jar, else
`FileNotFoundError`. -/
def ForgeBase.universal (fb : ForgeBase) (fs : FSm) : Except String String := do
  let sn ← fb.standard_name
  let std_file := fb.directory ++ "/" ++ sn ++ ".jar"
  if fs.exists std_file then pure std_file
  else do
    let fn ← fb.get_fullname_with ForgeType.universal
    let univ_file := fb.directory ++ "/" ++ fn ++ ".jar"
    if fs.exists univ_file then pure univ_file
    else Except.error "FileNotFoundError: Forge universal jar file has not been found."

/-- `libraries.LibrariesBuilder` (the `profile`/`folder`/`forge_base`
constructor arguments). -/
structure LibrariesBuilder where
  profile : Profile
  folder : String
  forge_base : Option ForgeBase := none

/-- `LibrariesBuilder.check_source`: every library must be required-and-
present, carry downloads with an artifact or truthy classifiers, or be the
forge universal placeholder; anything else is an `AssertionError`. -/
def LibrariesBuilder.check_source (b : LibrariesBuilder) (fs : FSm) : Except String Unit :=
  b.profile.libraries.forM (fun library => do
    if truthy library.clientreq || truthy library.serverreq then
      let p ← library.path
      let lib := b.folder ++ "/libraries/" ++ p
      if fs.exists lib then pure ()
      else Except.error ("AssertionError: " ++ lib)
    else
      match library.downloads with
      | some d =>
        if d.artifact.isSome || jsonTruthy d.classifiers then pure ()
        else Except.error "AssertionError: downloads has neither artifact nor classifiers"
      | none => do
        let fu ← is_forge_universal library
        if fu then pure ()
        else Except.error ("AssertionError: " ++ library.name))

/-- `LibrariesBuilder.check_all_forge_jars`: with the `-universal` and
`-server` variants present, a missing `-client` variant is fatal, otherwise
it is a split build; without both it is no split build. -/
def LibrariesBuilder.check_all_forge_jars (fs : FSm) (path : String) : Except String Bool :=
  let universal_jar := pathWithStem path (pathStem path ++ "-universal")
  let server_jar := pathWithStem path (pathStem path ++ "-server")
  let client_jar := pathWithStem path (pathStem path ++ "-client")
  if fs.exists universal_jar && fs.exists server_jar then
    if !(fs.exists client_jar) then
      .error ("Exception: client jar file is missing: " ++ client_jar)
    else .ok true
  else .ok false

/-- `LibrariesBuilder.build_artifact_download`. -/
def LibrariesBuilder.build_artifact_download (fs : FSm) (file path url : String) :
    Except String LibraryArtifactDownload :=
  match fs.get file with
  | some meta =>
    .ok { size := some (Int.ofNat meta.size), sha1 := some meta.sha1,
          path := some path, url := some (urljoin url path) }
  | none => .error ("FileNotFoundError: " ++ file)

/-- `LibrariesBuilder.copy_library_file`: copy into the target tree only if
the destination does not already exist. -/
def LibrariesBuilder.copy_library_file (fs : FSm) (file path target_libraries_folder : String) :
    Except String FSm :=
  let target := target_libraries_folder ++ "/" ++ path
  if fs.exists target then .ok fs
  else
    match fs.get file with
    | some meta => .ok (fs ++ [(target, meta)])
    | none => .error ("FileNotFoundError: " ++ file)

/-- `urlparse(url).scheme`, for the absolute URLs this code receives. -/
def urlScheme (u : String) : String :=
  match pySplit u "://" with
  | [_] => ""
  | s :: _ => s
  | [] => ""

/-- The element type of the builder's working list: the library paired with
an object identity, so that the in-place mutation
`library.downloads = LibraryDownloads(...)` can locate the iterated object
inside the list being mutated. -/
abbrev LibSlot : Type := Nat × Library

/-- The shared tail of one `LibrariesBuilder.build` iteration: assert the
resolved file exists, build its artifact download, attach it to the iterated
object (wherever it now sits in the working list) and optionally copy the
file into the target tree. -/
def LibrariesBuilder.buildTail (fs : FSm) (R : List LibSlot) (ident : Nat)
    (file path url target : String) (copy : Bool) :
    Except String (List LibSlot × FSm) := do
  if !(fs.exists file) then
    Except.error ("AssertionError: " ++ file)
  else do
    let download ← build_artifact_download fs file path url
    let R := R.map (fun e =>
      if e.1 = ident then (e.1, { e.2 with downloads := some { artifact := some download } }) else e)
    let fs ← if copy then copy_library_file fs file path target else pure fs
    pure (R, fs)

/-- `LibrariesBuilder.build`: validate, check the URL scheme, then iterate
over a copy of the library list (`self.profile.libraries[:]`), enumerated by
position.  Required libraries resolve their coordinate path; the forge
universal placeholder either synthesizes `-universal`/`-client` variant
entries (each inserted at raw position `pos + 1` of the working list) and
then falls through to resolve the combined jar, or falls back to
`forge_base.universal`; all other libraries are skipped.  Returns the final
library list and jar tree. -/
def LibrariesBuilder.build (b : LibrariesBuilder) (url : String)
    (target_libraries_folder : String) (copy : Bool) (fs : FSm) :
    Except String (List Library × FSm) := do
  b.check_source fs
  if urlScheme url ≠ "http" ∧ urlScheme url ≠ "https" then
    Except.error ("Exception: protocol " ++ urlScheme url ++ " is not supported")
  else do
    let libraries_folder := b.folder ++ "/libraries"
    let C := b.profile.libraries.enum
    let init : List LibSlot × FSm × Nat := (b.profile.libraries.enum, fs, b.profile.libraries.length)
    let final ← C.foldlM (fun (acc : List LibSlot × FSm × Nat) (entry : Nat × Library) => do
      let (R, fs, fresh) := acc
      let (pos, library) := entry
      let ident := pos
      let p ← library.path
      let file := libraries_folder ++ "/" ++ p
      let path := p
      if truthy library.clientreq || truthy library.serverreq then do
        let v ← library.version
        let vv ← match parseLooseVersion v with
          | some vv => pure vv
          | none => Except.error ("unsupported version string: " ++ v)
        if versionLt vv [1, 13] ∧ library.downloads.isSome then
          Except.error "AssertionError: not library.downloads"
        else do
          let (R, fs) ← buildTail fs R ident file path url target_libraries_folder copy
          pure (R, fs, fresh)
      else do
        let fu ← is_forge_universal library
        if fu then do
          let split ← check_all_forge_jars fs file
          if split then do
            let tagStep := fun (acc₂ : List LibSlot × FSm × Nat) (tag : String) => do
              let (R, fs, fresh) := acc₂
              let sfile := pathWithStem file (pathStem file ++ "-" ++ tag)
              let spath := pathWithStem path (pathStem file ++ "-" ++ tag)
              if !(fs.exists sfile) then
                Except.error ("AssertionError: " ++ sfile)
              else do
                let download ← build_artifact_download fs sfile spath url
                let fs ← if copy then copy_library_file fs sfile spath target_libraries_folder
                         else pure fs
                let new_library : Library :=
                  { name := library.name ++ "-" ++ tag,
                    downloads := some { artifact := some download },
                    dep := library.dep.map (fun d => { d with tag := some tag }) }
                pure (pyInsert R (pos + 1) (fresh, new_library), fs, fresh + 1)
            let (R, fs, fresh) ← ["universal", "client"].foldlM tagStep (R, fs, fresh)
            let (R, fs) ← buildTail fs R ident file path url target_libraries_folder copy
            pure (R, fs, fresh)
          else do
            let fb ← match b.forge_base with
              | some fb => pure fb
              | none => Except.error "AttributeError: forge_base is None"
            let file ← fb.universal fs
            let (R, fs) ← buildTail fs R ident file path url target_libraries_folder copy
            pure (R, fs, fresh)
        else
          pure (R, fs, fresh)) init
    let (R, fs, _) := final
    pure (R.map (fun e => e.2), fs)

/-- A JSON object (ordered, as `json.loads` returns it). -/
abbrev JObj : Type := List (String × Json)

/-- `dict.pop(k, MISSING)` followed by use of the remainder: the value, and
the object without that key. -/
def popKey (obj : JObj) (k : String) : Option Json × JObj :=
  (dictGet obj k, obj.filter (fun e => e.1 ≠ k))

/-- A JSON value read into a field whose declared type is `str` (no
conversion happens; `null` becomes `None`).  Non-string non-null values are
outside this typed model. -/
def asOptString (j : Json) : Except String (Option String) :=
  match j with
  | Json.str s => .ok (some s)
  | Json.null => .ok none
  | _ => .error "model restriction: expected a string or null"

/-- A JSON value read into a field whose declared type is `bool`. -/
def asOptBool (j : Json) : Except String (Option Bool) :=
  match j with
  | Json.bool b => .ok (some b)
  | Json.null => .ok none
  | _ => .error "model restriction: expected a bool or null"

/-- A JSON value read into a field whose declared type is `int`/`float`
without the `int` cast (none of the embedded fields has the literal type
string `"int"`). -/
def asOptInt (j : Json) : Except String (Option Int) :=
  match j with
  | Json.num n => .ok (some n)
  | Json.null => .ok none
  | _ => .error "model restriction: expected a number or null"

/-- A JSON value read into `checksums : List[str]` (no per-item conversion;
`null` becomes `None`). -/
def asOptStringList (j : Json) : Except String (Option (List String)) :=
  match j with
  | Json.null => .ok none
  | Json.arr xs => do
    let ss ← xs.mapM (fun x => match x with
      | Json.str s => Except.ok s
      | _ => Except.error "model restriction: checksums entry is not a string")
    pure (some ss)
  | _ => .error "model restriction: checksums is not a list"

/-- The raw `arguments` JSON object parsed into the typed model (the `game`
key is demanded here; the source raises the matching `KeyError` from
`__post_init__`'s `arguments["game"]` instead). -/
def Arguments.ofJson (j : Json) : Except String Arguments :=
  match j with
  | Json.obj kvs =>
    match dictGet kvs "game" with
    | some (Json.arr g) => .ok { game := g, rest := kvs.filter (fun e => e.1 ≠ "game") }
    | some _ => .error "model restriction: arguments.game is not a list"
    | none => .error "KeyError: 'game'"
  | _ => .error "TypeError: arguments is not a JSON object"

/-- Serialize the typed `arguments` back to its JSON object. -/
def Arguments.toJson (a : Arguments) : Json :=
  Json.obj (("game", Json.arr a.game) :: a.rest)

/-- `LibraryArtifactDownload.from_json` (specialized `Namespace.from_json`):
every field is defaulted, so each is popped when present; the leftover keys
become dynamic attributes. -/
def LibraryArtifactDownload.from_json (j : Json) : Except String LibraryArtifactDownload :=
  match j with
  | Json.obj data => do
    let (vsize, data) := popKey data "size"
    let size ← match vsize with
      | none => pure none
      | some v => asOptInt v
    let (vsha1, data) := popKey data "sha1"
    let sha1 ← match vsha1 with
      | none => pure none
      | some v => asOptString v
    let (vpath, data) := popKey data "path"
    let path ← match vpath with
      | none => pure none
      | some v => asOptString v
    let (vurl, data) := popKey data "url"
    let url ← match vurl with
      | none => pure none
      | some v => asOptString v
    pure { size := size, sha1 := sha1, path := path, url := url, extra := data }
  | _ => .error "AttributeError: object has no attribute 'copy'"

/-- `LibraryArtifactDownload.to_json` (specialized `Namespace.to_json`):
required/factory fields are always emitted, plain-default fields only when
different from their default; dynamic attributes always, last. -/
def LibraryArtifactDownload.to_json (a : LibraryArtifactDownload) : JObj :=
  (match a.size with | none => [] | some n => [("size", Json.num n)]) ++
  (match a.sha1 with | none => [] | some s => [("sha1", Json.str s)]) ++
  (match a.path with | none => [] | some s => [("path", Json.str s)]) ++
  (match a.url with | none => [] | some s => [("url", Json.str s)]) ++
  a.extra

/-- `LibraryDownloads.from_json`.  A JSON `null` for the dataclass-typed
`artifact` field reaches `LibraryArtifactDownload.from_json(None)` in the
source and raises there; here it is the same error. -/
def LibraryDownloads.from_json (j : Json) : Except String LibraryDownloads :=
  match j with
  | Json.obj data => do
    let (vart, data) := popKey data "artifact"
    let artifact ← match vart with
      | none => pure none
      | some v => (LibraryArtifactDownload.from_json v).map some
    let (vcls, data) := popKey data "classifiers"
    let classifiers := match vcls with
      | none => none
      | some Json.null => none
      | some v => some v
    pure { artifact := artifact, classifiers := classifiers, extra := data }
  | _ => .error "AttributeError: object has no attribute 'copy'"

/-- `LibraryDownloads.to_json`. -/
def LibraryDownloads.to_json (d : LibraryDownloads) : JObj :=
  (match d.artifact with | none => [] | some a => [("artifact", Json.obj a.to_json)]) ++
  (match d.classifiers with | none => [] | some c => [("classifiers", c)]) ++
  d.extra

/-- `Library.from_json`: pop the declared fields in declaration order
(`name` is required), convert the `downloads` subobject, run
`__post_init__`, keep the leftovers as dynamic attributes.  A JSON input
carrying a `_dependency` key (never produced by `to_json`, which skips
underscore attributes) is outside this typed model unless it is `null`. -/
def Library.from_json (j : Json) : Except String Library :=
  match j with
  | Json.obj data => do
    let (vname, data) := popKey data "name"
    let name ← match vname with
      | none => Except.error "KeyError: 'name'"
      | some (Json.str s) => pure s
      | some _ => Except.error "model restriction: name is not a string"
    let (vurl, data) := popKey data "url"
    let url ← match vurl with
      | none => pure none
      | some v => asOptString v
    let (vchk, data) := popKey data "checksums"
    let checksums ← match vchk with
      | none => pure none
      | some v => asOptStringList v
    let (vsrv, data) := popKey data "serverreq"
    let serverreq ← match vsrv with
      | none => pure none
      | some v => asOptBool v
    let (vcli, data) := popKey data "clientreq"
    let clientreq ← match vcli with
      | none => pure none
      | some v => asOptBool v
    let (vdl, data) := popKey data "downloads"
    let downloads ← match vdl with
      | none => pure none
      | some v => (LibraryDownloads.from_json v).map some
    let (vdep, data) := popKey data "_dependency"
    let _ ← match vdep with
      | none => pure ()
      | some Json.null => pure ()
      | some _ => Except.error "model restriction: raw _dependency in JSON input"
    Library.postInit
      { name := name, url := url, checksums := checksums, serverreq := serverreq,
        clientreq := clientreq, downloads := downloads, dep := none, extra := data }
  | _ => .error "AttributeError: object has no attribute 'copy'"

/-- `Library.to_json`: `name` is required (always emitted), the underscore
field `_dependency` is never emitted, plain-default fields only when set. -/
def Library.to_json (l : Library) : JObj :=
  [("name", Json.str l.name)] ++
  (match l.url with | none => [] | some s => [("url", Json.str s)]) ++
  (match l.checksums with
   | none => []
   | some cs => [("checksums", Json.arr (cs.map Json.str))]) ++
  (match l.serverreq with | none => [] | some b => [("serverreq", Json.bool b)]) ++
  (match l.clientreq with | none => [] | some b => [("clientreq", Json.bool b)]) ++
  (match l.downloads with | none => [] | some d => [("downloads", Json.obj d.to_json)]) ++
  l.extra

/-- An `Option` string field emitted by `Namespace.to_json` (`None` equals
the field default and is omitted; required string fields emit `null`
instead — see `Profile.to_json`). -/
def emitOptStr (k : String) (v : Option String) : JObj :=
  match v with
  | none => []
  | some s => [(k, Json.str s)]

/-- A required `str` field as emitted by `Namespace.to_json`: its dataclass
default is the `MISSING` sentinel, so it is emitted even when `None`. -/
def emitReqStr (k : String) (v : Option String) : JObj :=
  match v with
  | none => [(k, Json.null)]
  | some s => [(k, Json.str s)]

/-- `Profile.from_json`: required fields raise `KeyError` when missing,
`libraries` is parsed element-wise, `__post_init__` recomputes
`minecraftArguments` whenever `arguments` is present, leftovers become
dynamic attributes. -/
def Profile.from_json (obj : JObj) : Except String Profile := do
  let data := obj
  let (vid, data) := popKey data "id"
  let id ← match vid with
    | none => Except.error "KeyError: 'id'"
    | some v => asOptString v
  let (vtime, data) := popKey data "time"
  let time ← match vtime with
    | none => Except.error "KeyError: 'time'"
    | some v => asOptString v
  let (vrel, data) := popKey data "releaseTime"
  let releaseTime ← match vrel with
    | none => Except.error "KeyError: 'releaseTime'"
    | some v => asOptString v
  let (vtype, data) := popKey data "type"
  let type ← match vtype with
    | none => Except.error "KeyError: 'type'"
    | some v => asOptString v
  let (vmain, data) := popKey data "mainClass"
  let mainClass ← match vmain with
    | none => Except.error "KeyError: 'mainClass'"
    | some v => asOptString v
  let (vlog, data) := popKey data "logging"
  let logging ← match vlog with
    | none => pure []
    | some (Json.obj kvs) => pure kvs
    | some _ => Except.error "model restriction: logging is not a JSON object"
  let (varg, data) := popKey data "arguments"
  let arguments ← match varg with
    | none => pure none
    | some Json.null => pure none
    | some v => (Arguments.ofJson v).map some
  let (vmca, data) := popKey data "minecraftArguments"
  let minecraftArguments ← match vmca with
    | none => pure none
    | some v => asOptString v
  let (vmlv, data) := popKey data "minimumLauncherVersion"
  let minimumLauncherVersion := match vmlv with
    | none => none
    | some Json.null => none
    | some v => some v
  let (vlib, data) := popKey data "libraries"
  let libraries ← match vlib with
    | none => pure []
    | some (Json.arr xs) => xs.mapM Library.from_json
    | some _ => Except.error "AssertionError: libraries is not a list"
  let (vjar, data) := popKey data "jar"
  let jar ← match vjar with
    | none => pure none
    | some v => asOptString v
  let (vinh, data) := popKey data "inheritsFrom"
  let inheritsFrom ← match vinh with
    | none => pure none
    | some v => asOptString v
  let (vai, data) := popKey data "assetIndex"
  let assetIndex := match vai with
    | none => none
    | some Json.null => none
    | some v => some v
  let (vdl, data) := popKey data "downloads"
  let downloads := match vdl with
    | none => none
    | some Json.null => none
    | some v => some v
  let (vass, data) := popKey data "assets"
  let assets ← match vass with
    | none => pure none
    | some v => asOptString v
  pure (Profile.postInit
    { id := id, time := time, releaseTime := releaseTime, type := type,
      mainClass := mainClass, logging := logging, arguments := arguments,
      minecraftArguments := minecraftArguments,
      minimumLauncherVersion := minimumLauncherVersion, libraries := libraries,
      jar := jar, inheritsFrom := inheritsFrom, assetIndex := assetIndex,
      downloads := downloads, assets := assets, extra := data })

/-- `Profile.to_json`: the five required fields and the two factory-default
fields (`logging`, `libraries`) are always emitted — their dataclass default
is the `MISSING` sentinel, which never equals the value — the plain-default
fields only when not `None`; dynamic attributes always, last. -/
def Profile.to_json (p : Profile) : JObj :=
  emitReqStr "id" p.id ++
  emitReqStr "time" p.time ++
  emitReqStr "releaseTime" p.releaseTime ++
  emitReqStr "type" p.type ++
  emitReqStr "mainClass" p.mainClass ++
  [("logging", Json.obj p.logging)] ++
  (match p.arguments with | none => [] | some a => [("arguments", a.toJson)]) ++
  emitOptStr "minecraftArguments" p.minecraftArguments ++
  (match p.minimumLauncherVersion with | none => [] | some v => [("minimumLauncherVersion", v)]) ++
  [("libraries", Json.arr (p.libraries.map (fun l => Json.obj l.to_json)))] ++
  emitOptStr "jar" p.jar ++
  emitOptStr "inheritsFrom" p.inheritsFrom ++
  (match p.assetIndex with | none => [] | some v => [("assetIndex", v)]) ++
  (match p.downloads with | none => [] | some v => [("downloads", v)]) ++
  emitOptStr "assets" p.assets ++
  p.extra

/-- The declared dataclass field names of `Profile`. -/
def profileDeclaredKeys : List String :=
  ["id", "time", "releaseTime", "type", "mainClass", "logging", "arguments",
   "minecraftArguments", "minimumLauncherVersion", "libraries", "jar",
   "inheritsFrom", "assetIndex", "downloads", "assets"]

/-- The dynamic attributes `Profile.from_json` keeps: the document minus the
declared keys, in order — the successive `dict.pop` calls, composed. -/
def undeclaredOf (obj : JObj) : JObj :=
  ((((((((((((((obj.filter (fun e => e.1 ≠ "id")).filter
    (fun e => e.1 ≠ "time")).filter (fun e => e.1 ≠ "releaseTime")).filter
    (fun e => e.1 ≠ "type")).filter (fun e => e.1 ≠ "mainClass")).filter
    (fun e => e.1 ≠ "logging")).filter (fun e => e.1 ≠ "arguments")).filter
    (fun e => e.1 ≠ "minecraftArguments")).filter
    (fun e => e.1 ≠ "minimumLauncherVersion")).filter
    (fun e => e.1 ≠ "libraries")).filter (fun e => e.1 ≠ "jar")).filter
    (fun e => e.1 ≠ "inheritsFrom")).filter (fun e => e.1 ≠ "assetIndex")).filter
    (fun e => e.1 ≠ "downloads")).filter (fun e => e.1 ≠ "assets")

/-! ### Concrete fixtures used by individual theorems -/

/-- A base library named `g:a:1.0` with a downloads payload of its own. -/
def libBaseFx : Library :=
  { name := "g:a:1.0",
    downloads := some { artifact := some { url := some "https://base/x" } } }

/-- An overlay library with the same name and a different downloads payload. -/
def libOverlayFx : Library :=
  { name := "g:a:1.0",
    downloads := some { artifact := some { url := some "https://overlay/x" } } }

/-- A base profile fixture (it inherits from a parent). -/
def profBaseFx : Profile :=
  { id := some "b", time := some "tb", releaseTime := some "rb",
    type := some "release", mainClass := some "MB",
    inheritsFrom := some "parent", libraries := [libBaseFx] }

/-- An overlay profile fixture. -/
def profOverlayFx : Profile :=
  { id := some "o", time := some "to", releaseTime := some "ro",
    type := some "release", mainClass := some "MO", libraries := [libOverlayFx] }

/-- A constructed base profile whose `arguments.game` has one string entry. -/
def profArgBaseFx : Profile :=
  Profile.postInit
    { id := some "b", time := none, releaseTime := none, type := none,
      mainClass := none, arguments := some { game := [Json.str "a"] } }

/-- A constructed overlay profile whose `arguments.game` is empty. -/
def profArgOverlayFx : Profile :=
  Profile.postInit
    { id := some "o", time := none, releaseTime := none, type := none,
      mainClass := none, arguments := some { game := [] } }

/-- A constructed overlay profile whose `arguments.game` has one string
entry. -/
def profArgWitnessFx : Profile :=
  Profile.postInit
    { id := some "o", time := none, releaseTime := none, type := none,
      mainClass := none, arguments := some { game := [Json.str "z"] } }

/-- The forge universal placeholder library of the C4 fixtures. -/
def forgeDepFx : LibraryDependency :=
  ⟨"net.minecraftforge", "forge", "1.7.10-10.13.4.1614", none⟩

/-- The placeholder library as parsed from a profile. -/
def forgeLibFx : Library :=
  { name := "net.minecraftforge:forge:1.7.10-10.13.4.1614", dep := some forgeDepFx }

/-- A profile holding only the placeholder library. -/
def forgeProfileFx : Profile :=
  { id := some "x", time := none, releaseTime := none, type := none,
    mainClass := none, libraries := [forgeLibFx] }

/-- The forge build directory collaborator of the C4 fixtures. -/
def forgeBaseFx : ForgeBase :=
  { mc_version := "1.7.10", forge_version := "10.13.4.1614", directory := "D",
    type := ForgeType.installer }

/-- The libraries builder over the C4 fixtures. -/
def libsBuilderFx : LibrariesBuilder :=
  { profile := forgeProfileFx, folder := "F", forge_base := some forgeBaseFx }

/-- The combined forge jar path of the C4 fixtures. -/
def combinedJarFx : String :=
  "F/libraries/net/minecraftforge/forge/1.7.10-10.13.4.1614/forge-1.7.10-10.13.4.1614.jar"

/-- The `-universal` variant jar path. -/
def universalJarFx : String :=
  "F/libraries/net/minecraftforge/forge/1.7.10-10.13.4.1614/forge-1.7.10-10.13.4.1614-universal.jar"

/-- The `-server` variant jar path. -/
def serverJarFx : String :=
  "F/libraries/net/minecraftforge/forge/1.7.10-10.13.4.1614/forge-1.7.10-10.13.4.1614-server.jar"

/-- The `-client` variant jar path. -/
def clientJarFx : String :=
  "F/libraries/net/minecraftforge/forge/1.7.10-10.13.4.1614/forge-1.7.10-10.13.4.1614-client.jar"

/-- The coordinate-relative path of the combined forge jar. -/
def combinedRelFx : String :=
  "net/minecraftforge/forge/1.7.10-10.13.4.1614/forge-1.7.10-10.13.4.1614.jar"

/-- The artifact record resolved for the combined jar. -/
def combinedArtifactFx : LibraryArtifactDownload :=
  { size := some 44, sha1 := some "X", path := some combinedRelFx,
    url := some ("https://libs.example.com/" ++ combinedRelFx) }

/-- The placeholder library after resolution against the combined jar. -/
def resolvedForgeLibFx : Library :=
  { forgeLibFx with downloads := some { artifact := some combinedArtifactFx } }

/-- The artifact record resolved for the `-client` variant jar. -/
def clientArtifactFx : LibraryArtifactDownload :=
  { size := some 33, sha1 := some "C",
    path := some "net/minecraftforge/forge/1.7.10-10.13.4.1614/forge-1.7.10-10.13.4.1614-client.jar",
    url := some "https://libs.example.com/net/minecraftforge/forge/1.7.10-10.13.4.1614/forge-1.7.10-10.13.4.1614-client.jar" }

/-- The artifact record resolved for the `-universal` variant jar. -/
def universalArtifactFx : LibraryArtifactDownload :=
  { size := some 11, sha1 := some "U",
    path := some "net/minecraftforge/forge/1.7.10-10.13.4.1614/forge-1.7.10-10.13.4.1614-universal.jar",
    url := some "https://libs.example.com/net/minecraftforge/forge/1.7.10-10.13.4.1614/forge-1.7.10-10.13.4.1614-universal.jar" }

/-- The synthesized `-client` variant library. -/
def clientLibFx : Library :=
  { name := "net.minecraftforge:forge:1.7.10-10.13.4.1614-client",
    downloads := some { artifact := some clientArtifactFx },
    dep := some { forgeDepFx with tag := some "client" } }

/-- The synthesized `-universal` variant library. -/
def universalLibFx : Library :=
  { name := "net.minecraftforge:forge:1.7.10-10.13.4.1614-universal",
    downloads := some { artifact := some universalArtifactFx },
    dep := some { forgeDepFx with tag := some "universal" } }

/-- A one-package tree with no index file yet. -/
def treeFx : PackagesTree :=
  ⟨[("p", some ⟨"p", "P", "v0", "t0", "rest"⟩)], none⟩

/-- The packages URL of the index fixtures. -/
def packagesUrlFx : String := "https://packages.example.com"

/-- The result of the first `cmd_update` run on the fixture tree. -/
def run1Fx : PackagesTree × IndexPackageManifest :=
  (cmd_update treeFx "20260101" "T1" packagesUrlFx).toOption.getD
    (⟨[], none⟩, ⟨"", "", ⟨"", ""⟩, []⟩)

/-- A five-required-keys JSON profile document with one unknown key and no
`logging` key. -/
def objFx : JObj :=
  [("id", Json.str "i"), ("time", Json.str "t"), ("releaseTime", Json.str "r"),
   ("type", Json.str "x"), ("mainClass", Json.str "m"), ("fancy", Json.str "kept")]

/-! ## Theorems -/

/-! ### Dict-semantics lemmas -/

/-- `List.any` after a (type-changing) map. -/
theorem listAny_map {β γ : Type} (f : β → γ) (l : List β) (p : γ → Bool) :
    (l.map f).any p = l.any (p ∘ f) := by
  induction l with
  | nil => rfl
  | cons x xs ih => simp [List.any_cons, ih]

/-- `List.any` only depends on the predicate's values on the list. -/
theorem listAny_congr {β : Type} (l : List β) (f g : β → Bool)
    (h : ∀ y ∈ l, f y = g y) : l.any f = l.any g := by
  induction l with
  | nil => rfl
  | cons z zs ih =>
    simp only [List.any_cons, h z (by simp)]
    rw [ih (fun y hy => h y (by simp [hy]))]

/-- Looking a key up in a cons. -/
theorem dictGet_cons {α : Type} (k' : String) (v : α) (bs : List (String × α))
    (k : String) :
    dictGet ((k', v) :: bs) k = if k' = k then some v else dictGet bs k := by
  by_cases h : k' = k
  · simp [dictGet, List.find?_cons_of_pos, h]
  · rw [if_neg h]
    unfold dictGet
    rw [List.find?_cons_of_neg]
    simpa using h

/-- A key absent from the list is not found. -/
theorem dictGet_eq_none {α : Type} (bs : List (String × α)) (k : String)
    (h : k ∉ bs.map Prod.fst) : dictGet bs k = none := by
  unfold dictGet
  rw [List.find?_eq_none.mpr]
  · rfl
  · intro e he
    simp only [decide_eq_true_eq]
    intro hc
    exact h (List.mem_map.mpr ⟨e, he, hc⟩)

/-- Inserting a key some entry already carries overwrites in place. -/
theorem dictInsert_of_mem {α : Type} (m : List (String × α)) (k : String) (v : α)
    (h : (m.any (fun e => e.1 = k)) = true) :
    dictInsert m k v = m.map (fun e => if e.1 = k then (k, v) else e) := by
  unfold dictInsert
  rw [if_pos h]

/-- Inserting a fresh key appends. -/
theorem dictInsert_of_not_mem {α : Type} (m : List (String × α)) (k : String) (v : α)
    (h : ∀ e ∈ m, e.1 ≠ k) : dictInsert m k v = m ++ [(k, v)] := by
  unfold dictInsert
  rw [if_neg]
  simp only [List.any_eq_true, decide_eq_true_eq, not_exists]
  intro e
  intro hc
  rcases hc with ⟨he, hk⟩
  exact h e he hk

/-- One step of `dict.update`. -/
theorem dictUpdate_cons {α : Type} (a : List (String × α)) (x : String × α)
    (bs : List (String × α)) :
    dictUpdate a (x :: bs) = dictUpdate (dictInsert a x.1 x.2) bs := rfl

/-- `dict.update` with keys that are fresh and pairwise distinct appends. -/
theorem dictUpdate_of_fresh {α : Type} (bs : List (String × α)) :
    ∀ a : List (String × α), (bs.map Prod.fst).Nodup →
    (∀ e ∈ bs, ∀ e' ∈ a, e'.1 ≠ e.1) → dictUpdate a bs = a ++ bs := by
  induction bs with
  | nil => intro a _ _; simp [dictUpdate]
  | cons x bs ih =>
    intro a hnd hf
    rw [dictUpdate_cons,
      dictInsert_of_not_mem a x.1 x.2 (fun e he => hf x (by simp) e he)]
    rw [ih (a ++ [(x.1, x.2)]) hnd.of_cons]
    · simp
    · intro e he e' he'
      rcases List.mem_append.mp he' with h' | h'
      · exact hf e (by simp [he]) e' h'
      · simp only [List.mem_singleton] at h'
        subst h'
        simp only [List.map_cons, List.nodup_cons, List.mem_map] at hnd
        intro hc
        exact hnd.1 ⟨e, he, hc.symm⟩

/-- A key-distinct association list is its own dict. -/
theorem dictOfList_nodup {α : Type} (xs : List (String × α))
    (h : (xs.map Prod.fst).Nodup) : dictOfList xs = xs := by
  unfold dictOfList
  rw [dictUpdate_of_fresh xs [] h (by simp)]
  simp

/-- `dict.update` where the right side has pairwise-distinct keys: every
existing occurrence of a right-side key is overwritten in place, the fresh
right-side entries are appended in order. -/
theorem dictUpdate_subst {α : Type} (bs : List (String × α)) :
    ∀ a : List (String × α), (bs.map Prod.fst).Nodup →
    dictUpdate a bs =
      a.map (fun e => match dictGet bs e.1 with
        | some v => (e.1, v)
        | none => e) ++
      bs.filter (fun e => !(a.any (fun x => x.1 = e.1))) := by
  induction bs with
  | nil => simp [dictUpdate, dictGet]
  | cons x bs ih =>
    intro a hnd
    have hx : x.1 ∉ bs.map Prod.fst := by
      simp only [List.map_cons, List.nodup_cons] at hnd
      exact hnd.1
    have hbs : (bs.map Prod.fst).Nodup := by
      simp only [List.map_cons, List.nodup_cons] at hnd
      exact hnd.2
    have hget : dictGet bs x.1 = none := dictGet_eq_none bs x.1 hx
    rw [dictUpdate_cons]
    by_cases hk : (a.any (fun e => e.1 = x.1)) = true
    · rw [dictInsert_of_mem a x.1 x.2 hk, ih _ hbs, List.map_map]
      congr 1
      · apply List.map_congr_left
        intro e _
        by_cases he : e.1 = x.1
        · have h1 : (fun e => if e.1 = x.1 then (x.1, x.2) else e) e = (x.1, x.2) := by
            simp [he]
          simp only [Function.comp_apply, h1]
          have h2 : dictGet (x :: bs) e.1 = some x.2 := by
            rcases x with ⟨xk, xv⟩
            rw [he, dictGet_cons]
            simp
          rw [h2]
          rcases x with ⟨xk, xv⟩
          simp only [hget]
          simp [he]
        · have h1 : (fun e => if e.1 = x.1 then (x.1, x.2) else e) e = e := by
            simp [he]
          simp only [Function.comp_apply, h1]
          have h2 : dictGet (x :: bs) e.1 = dictGet bs e.1 := by
            rcases x with ⟨xk, xv⟩
            rw [dictGet_cons, if_neg]
            intro hc
            exact he hc.symm
          rw [h2]
      · rw [List.filter_cons]
        rw [show (!(a.any (fun e => e.1 = x.1))) = false by simp [hk]]
        simp only [Bool.false_eq_true, if_false]
        apply List.filter_congr
        intro e he
        have hne : e.1 ≠ x.1 := by
          intro hc
          exact hx (by
            rw [← hc]
            exact List.mem_map.mpr ⟨e, he, rfl⟩)
        congr 1
        rw [List.any_map]
        apply listAny_congr
        intro y _
        simp only [Function.comp_apply]
        by_cases hy : y.1 = x.1
        · simp [hy]
        · simp [hy]
    · rw [dictInsert_of_not_mem a x.1 x.2 (by
        intro e he hc
        exact hk (List.any_eq_true.mpr ⟨e, he, by simpa using hc⟩)),
        ih _ hbs]
      rw [List.map_append, List.filter_cons]
      rw [show (!(a.any (fun e => e.1 = x.1))) = true by
        simp only [Bool.not_eq_true']
        exact Bool.eq_false_iff.mpr hk]
      simp only [if_pos trivial]
      have hmapa : a.map (fun e => match dictGet bs e.1 with
          | some v => (e.1, v)
          | none => e) =
          a.map (fun e => match dictGet (x :: bs) e.1 with
            | some v => (e.1, v)
            | none => e) := by
        apply List.map_congr_left
        intro e he
        have hne : e.1 ≠ x.1 := by
          intro hc
          exact hk (List.any_eq_true.mpr ⟨e, he, by simpa using hc⟩)
        have h2 : dictGet (x :: bs) e.1 = dictGet bs e.1 := by
          rcases x with ⟨xk, xv⟩
          rw [dictGet_cons, if_neg]
          intro hc
          exact hne hc.symm
        rw [h2]
      have hmapx : ([(x.1, x.2)]).map (fun e => match dictGet bs e.1 with
          | some v => (e.1, v)
          | none => e) = [(x.1, x.2)] := by
        simp [hget]
      have hfiltbs : bs.filter (fun e => !((a ++ [(x.1, x.2)]).any (fun y => y.1 = e.1))) =
          bs.filter (fun e => !(a.any (fun y => y.1 = e.1))) := by
        apply List.filter_congr
        intro e he
        have hne : e.1 ≠ x.1 := by
          intro hc
          exact hx (by
            rw [← hc]
            exact List.mem_map.mpr ⟨e, he, rfl⟩)
        congr 1
        simp only [List.any_append, List.any_cons, List.any_nil, Bool.or_false]
        rw [show (decide (x.1 = e.1)) = false by
          simpa using fun hc => hne hc.symm]
        simp
      rw [hmapa, hmapx, hfiltbs, List.append_assoc]
      rfl

/-! ### `pyJoin` and merge-stage lemmas -/

/-- Joining two non-empty lists splits around one separator. -/
theorem pyJoin_append (sep : String) (a b : List String) (ha : a ≠ []) (hb : b ≠ []) :
    pyJoin sep (a ++ b) = pyJoin sep a ++ sep ++ pyJoin sep b := by
  induction a with
  | nil => exact absurd rfl ha
  | cons x xs ih =>
    cases xs with
    | nil =>
      cases b with
      | nil => exact absurd rfl hb
      | cons y ys => simp [pyJoin]
    | cons x2 xs2 =>
      have := ih (by simp)
      simp only [List.cons_append] at this ⊢
      simp [pyJoin, this, String.append_assoc]

/-- A successful first merge stage only changes the five required fields,
`logging`, `arguments` and `minecraftArguments`. -/
theorem mergeFront_fields (b o s : Profile) (h : Profile.mergeFront b o = .ok s) :
    s.libraries = b.libraries ∧ s.inheritsFrom = b.inheritsFrom ∧
    s.extra = b.extra ∧ s.jar = b.jar := by
  unfold Profile.mergeFront at h
  cases ho : o.arguments with
  | none =>
    rw [ho] at h
    cases hom : o.minecraftArguments with
    | none =>
      rw [hom] at h
      simp only [bind, Except.bind, pure, Except.pure, Except.ok.injEq] at h
      subst h
      exact ⟨rfl, rfl, rfl, rfl⟩
    | some v =>
      rw [hom] at h
      simp only [bind, Except.bind, pure, Except.pure] at h
      rcases hba : b.arguments with _ | ga
      · rw [hba] at h
        simp only [Except.ok.injEq] at h
        subst h
        exact ⟨rfl, rfl, rfl, rfl⟩
      · rw [hba] at h
        rcases hbm : b.minecraftArguments with _ | mmm
        · rw [hbm] at h
          simp at h
        · rw [hbm] at h
          simp only [Except.ok.injEq] at h
          subst h
          exact ⟨rfl, rfl, rfl, rfl⟩
  | some oargs =>
    rw [ho] at h
    rcases hba : b.arguments with _ | ga
    · rw [hba] at h
      simp [bind, Except.bind] at h
    · rw [hba] at h
      simp only [bind, Except.bind, pure, Except.pure] at h
      cases hom : o.minecraftArguments with
      | none =>
        rw [hom] at h
        simp only [Except.ok.injEq] at h
        subst h
        exact ⟨rfl, rfl, rfl, rfl⟩
      | some v =>
        rw [hom] at h
        rcases hbm : b.minecraftArguments with _ | mmm
        · rw [hbm] at h
          simp at h
        · rw [hbm] at h
          simp only [Except.ok.injEq] at h
          subst h
          exact ⟨rfl, rfl, rfl, rfl⟩

/-- A successful second merge stage leaves `arguments` and
`minecraftArguments` untouched and replaces `libraries` with the
deduplicated concatenation. -/
theorem mergeBack_fields (s o m : Profile) (h : Profile.mergeBack s o = .ok m) :
    m.arguments = s.arguments ∧ m.minecraftArguments = s.minecraftArguments ∧
    m.libraries = dedupLibraries (o.libraries ++ s.libraries) ∧
    m.id = s.id ∧ m.mainClass = s.mainClass := by
  unfold Profile.mergeBack at h
  simp only [bind, pure, Except.pure] at h
  repeat' first
    | (unfold Except.bind at h)
    | (split at h)
  all_goals first
    | (injection h with h2; subst h2; exact ⟨rfl, rfl, rfl, rfl, rfl⟩)
    | (injection h)

/-- Looking a name up in the name-keyed pairing of a library list is
`find?` on the list itself. -/
theorem dictGet_map_pair (b : List Library) (k : String) :
    dictGet (b.map (fun l => (l.name, l))) k =
      b.find? (fun x => x.name = k) := by
  induction b with
  | nil => rfl
  | cons l ls ih =>
    simp only [List.map_cons, dictGet_cons, List.find?]
    by_cases hk : l.name = k
    · simp [hk]
    · simp [hk, ih]

/-- The name-keys of the pairing are the names. -/
theorem map_pair_fst (b : List Library) :
    (b.map (fun l => (l.name, l))).map Prod.fst = b.map Library.name := by
  simp [List.map_map]

/-- A name-distinct library list deduplicates to itself. -/
theorem dedupLibraries_nodup (libs : List Library)
    (h : (libs.map Library.name).Nodup) : dedupLibraries libs = libs := by
  unfold dedupLibraries
  rw [dictOfList_nodup _ (by rw [map_pair_fst]; exact h), List.map_map]
  exact List.map_id libs

/-- `dictOfList` over a concatenation updates the left dict with the right
entries. -/
theorem dictOfList_append {α : Type} (xs ys : List (String × α)) :
    dictOfList (xs ++ ys) = dictUpdate (dictOfList xs) ys := by
  unfold dictOfList dictUpdate
  rw [List.foldl_append]

/-- The dict-comprehension semantics of the merge's `libraries` branch, on
name-distinct lists: overlay entries keep their order but base entries win
name collisions, and base-only entries are appended in base order. -/
theorem dedupLibraries_append (o b : List Library)
    (ho : (o.map Library.name).Nodup) (hb : (b.map Library.name).Nodup) :
    dedupLibraries (o ++ b) =
      o.map (fun l =>
        match b.find? (fun x => x.name = l.name) with
        | some bl => bl
        | none => l) ++
      b.filter (fun l => !(o.any (fun x => x.name = l.name))) := by
  unfold dedupLibraries
  rw [List.map_append, dictOfList_append,
    dictOfList_nodup _ (by rw [map_pair_fst]; exact ho),
    dictUpdate_subst _ _ (by rw [map_pair_fst]; exact hb),
    List.map_append]
  congr 1
  · rw [List.map_map, List.map_map]
    apply List.map_congr_left
    intro l _
    simp only [Function.comp_apply, dictGet_map_pair]
    cases b.find? (fun x => x.name = l.name) <;> rfl
  · induction b with
    | nil => rfl
    | cons x bs ihb =>
      have hbs : (bs.map Library.name).Nodup := by
        simp only [List.map_cons, List.nodup_cons] at hb
        exact hb.2
      simp only [List.map_cons, List.filter_cons]
      have hany : ((o.map (fun l => (l.name, l))).any (fun y => y.1 = x.name)) =
          (o.any (fun y => y.name = x.name)) := listAny_map _ _ _
      rw [hany]
      by_cases hx : (o.any (fun y => y.name = x.name)) = true
      · rw [hx]
        simp only [Bool.not_true, Bool.false_eq_true, if_false]
        exact ihb hbs
      · rw [Bool.eq_false_iff.mpr hx]
        simp only [Bool.not_false, if_pos trivial, List.map_cons]
        rw [ihb hbs]

/-- C2 (code bug): `PackageBuilder.build` gates the copy on `is_same_file`
being *true*.  At the failing input — one selected file with content
`"hello"` and no destination file — the destination is never written (the
file tree is returned unchanged and `pkg/mods/a.txt` still does not exist),
and when the destination exists with different content `"world"` it is also
left unwritten; yet the `PackageFile` manifest entry is appended in both
runs.  The claim (and §4.4 of the spec) requires the copy exactly when the
content hashes differ. -/
theorem c2_copy_gate_inverted :
    PackageBuilder.build [("mods/a.txt", "inst/mods/a.txt")] "pkg"
        "https://p.example.com/x/" [("inst/mods/a.txt", "hello")] =
      .ok ([("inst/mods/a.txt", "hello")],
           [{ size := 5, sha1 := "hello", path := "mods/a.txt",
              url := "https://p.example.com/x/mods/a.txt" }]) ∧
    FS.exists [("inst/mods/a.txt", "hello")] "pkg/mods/a.txt" = false ∧
    PackageBuilder.build [("mods/a.txt", "inst/mods/a.txt")] "pkg"
        "https://p.example.com/x/"
        [("inst/mods/a.txt", "hello"), ("pkg/mods/a.txt", "world")] =
      .ok ([("inst/mods/a.txt", "hello"), ("pkg/mods/a.txt", "world")],
           [{ size := 5, sha1 := "hello", path := "mods/a.txt",
              url := "https://p.example.com/x/mods/a.txt" }]) :=
  ⟨rfl, rfl, rfl⟩

/-- C8 (code bug): parsing the four-part coordinate
`com.example:art:2.0:natives` is accepted, but `Library.__post_init__` binds
the tag and then drops it, so the derived storage path is
`com/example/art/2.0/art-2.0.jar` — without the tag — although
`LibraryDependency.as_path` would include a tag that is present (as the
dependencies built by `update_from_install_profile` do). -/
theorem c8_four_part_tag_dropped :
    Library.postInit { name := "com.example:art:2.0:natives" } =
      .ok { name := "com.example:art:2.0:natives",
            dep := some ⟨"com.example", "art", "2.0", none⟩ } ∧
    Library.path { name := "com.example:art:2.0:natives",
                   dep := some ⟨"com.example", "art", "2.0", none⟩ } =
      .ok "com/example/art/2.0/art-2.0.jar" ∧
    LibraryDependency.as_path ⟨"com.example", "art", "2.0", some "natives"⟩ =
      "com/example/art/2.0/art-2.0-natives.jar" :=
  ⟨rfl, rfl, rfl⟩

/-- C9 (counterexample): the range `"[,)"` is fully unbounded with a *closed*
left bound, yet the class marks it empty and it contains nothing — the claim
says an unbounded interval with at least one closed bound contains every
version. -/
theorem c9_counterexample :
    VersionRange.parse "[,)" = .ok ⟨none, none, false, true, true⟩ ∧
    VersionRange.lclosed ⟨none, none, false, true, true⟩ = true ∧
    VersionRange.containsV ⟨none, none, false, true, true⟩ [1, 0] = false :=
  ⟨rfl, rfl, rfl⟩

/-- C9 (amended): a fully-unbounded range matches nothing as soon as *at
least one* side is open (`"(,)"`, `"[,)"`, `"(,]"`); the both-closed
`"[,]"` contains every version; on bounded sides containment respects the
brackets — closed bounds include their endpoint, open bounds exclude it. -/
theorem c9_unbounded_and_bracket_semantics :
    (∀ v, (VersionRange.parse "[,]").map (fun r => r.containsV v) = .ok true) ∧
    (∀ v, (VersionRange.parse "(,)").map (fun r => r.containsV v) = .ok false) ∧
    (∀ v, (VersionRange.parse "[,)").map (fun r => r.containsV v) = .ok false) ∧
    (∀ v, (VersionRange.parse "(,]").map (fun r => r.containsV v) = .ok false) ∧
    (VersionRange.parse "[1.7, 1.7.10]").map
        (fun r => (r.containsV [1, 7], r.containsV [1, 7, 10],
                   r.containsV [1, 6, 99], r.containsV [1, 7, 11])) =
      .ok (true, true, false, false) ∧
    (VersionRange.parse "(1.7, 1.7.10)").map
        (fun r => (r.containsV [1, 7], r.containsV [1, 7, 10],
                   r.containsV [1, 7, 5])) =
      .ok (false, false, true) :=
  ⟨fun _ => rfl, fun _ => rfl, fun _ => rfl, fun _ => rfl, rfl, rfl⟩

/-- C4 (counterexample): with the three variant jars present but no combined
`forge-X.jar` — exactly the fixture the claim describes — resolution does not
complete with two synthesized entries: after inserting them the pass still
resolves the original placeholder against the combined jar and aborts with
an assertion on the missing file. -/
theorem c4_counterexample :
    libsBuilderFx.build "https://libs.example.com/" "T" false
        [(universalJarFx, ⟨11, "U"⟩), (serverJarFx, ⟨22, "S"⟩), (clientJarFx, ⟨33, "C"⟩)] =
      .error ("AssertionError: " ++ combinedJarFx) :=
  rfl

/-- C4 (amended): (1) with the three variant jars *and* the combined jar
present, resolution succeeds and yields exactly two synthesized entries with
valid artifact records, placed immediately after the original
(`-client` first, then `-universal`), the original resolving to the combined
jar; (2) with `-universal` and `-server` present but `-client` missing,
resolution raises the fatal split-build inconsistency error; (3) with no
split build present, the single universal artifact from the forge directory
is used directly for the placeholder's artifact record. -/
theorem c4_split_build_resolution :
    libsBuilderFx.build "https://libs.example.com/" "T" false
        [(universalJarFx, ⟨11, "U"⟩), (serverJarFx, ⟨22, "S"⟩),
         (clientJarFx, ⟨33, "C"⟩), (combinedJarFx, ⟨44, "X"⟩)] =
      .ok ([resolvedForgeLibFx, clientLibFx, universalLibFx],
           [(universalJarFx, ⟨11, "U"⟩), (serverJarFx, ⟨22, "S"⟩),
            (clientJarFx, ⟨33, "C"⟩), (combinedJarFx, ⟨44, "X"⟩)]) ∧
    libsBuilderFx.build "https://libs.example.com/" "T" false
        [(universalJarFx, ⟨11, "U"⟩), (serverJarFx, ⟨22, "S"⟩)] =
      .error ("Exception: client jar file is missing: " ++ clientJarFx) ∧
    libsBuilderFx.build "https://libs.example.com/" "T" false
        [("D/forge-1.7.10-10.13.4.1614-1.7.10.jar", ⟨44, "X"⟩)] =
      .ok ([resolvedForgeLibFx],
           [("D/forge-1.7.10-10.13.4.1614-1.7.10.jar", ⟨44, "X"⟩)]) :=
  ⟨rfl, rfl, rfl⟩

/-- C1 (counterexample): merging the fixture profiles, whose library lists
both contain `g:a:1.0` with different downloads payloads, yields exactly one
library under that name — but its payload is the *base's* entry
(`https://base/x`), not the overlay's (`https://overlay/x`). -/
theorem c1_counterexample :
    (Profile.merge profBaseFx profOverlayFx).map
        (fun r => r.1.libraries.map (fun l =>
          (l.name, l.downloads.bind (fun d => d.artifact.bind (fun a => a.url))))) =
      .ok [("g:a:1.0", some "https://base/x")] ∧
    libOverlayFx.downloads.bind (fun d => d.artifact.bind (fun a => a.url)) =
      some "https://overlay/x" ∧
    (some "https://base/x" : Option String) ≠ some "https://overlay/x" :=
  ⟨rfl, rfl, by decide⟩

/-- C5 (counterexample): `Profile.merge` returns `None` — not a new
`Profile` — and the post-call state of the base differs from its pre-call
state (`mainClass` became the overlay's), so the base is mutated in place. -/
theorem c5_counterexample :
    (Profile.merge profBaseFx profOverlayFx).map
        (fun r => (r.1.mainClass, r.2.isSome)) = .ok (some "MO", false) ∧
    profBaseFx.mainClass = some "MB" ∧
    (some "MO" : Option String) ≠ some "MB" :=
  ⟨rfl, rfl, by decide⟩

/-- C6 (counterexample): merging the fixture base with the all-null overlay
does not return a profile equal to the base with `inheritsFrom` cleared:
`inheritsFrom` is *kept* (`full_profile`, not `merge`, clears it) while the
always-copied `mainClass` is overwritten with the overlay's null. -/
theorem c6_counterexample :
    (Profile.merge profBaseFx nullProfile).map
        (fun r => (r.1.inheritsFrom, r.1.mainClass)) =
      .ok (some "parent", none) ∧
    profBaseFx.inheritsFrom = some "parent" ∧
    profBaseFx.mainClass = some "MB" ∧
    (some "parent" : Option String) ≠ none ∧
    (none : Option String) ≠ some "MB" :=
  ⟨rfl, rfl, rfl, by decide, by decide⟩

/-- C7 (counterexample): after merging the constructed fixtures — the
overlay's `arguments.game` has no string entry — the merged profile's
`minecraftArguments` is `"a "` (a trailing space appended by
`self.minecraftArguments += " " + value`), while the space-join of the
string entries of the concatenated game lists is `"a"`. -/
theorem c7_counterexample :
    (Profile.merge profArgBaseFx profArgOverlayFx).map
        (fun r => (r.1.minecraftArguments,
                   r.1.arguments.map Profile.build_minecraft_arguments)) =
      .ok (some "a ", some "a") ∧
    ("a " : String) ≠ "a" :=
  ⟨rfl, by decide⟩

/-- C3 (counterexample): running `cmd_update` twice on the fixture tree with
no file change in between carries every `IndexPackage` forward unchanged,
but the two manifests are not byte-identical up to `time`: the top-level
`version` is bumped on every run (`20260101.1` then `20260101.2`). -/
theorem c3_counterexample :
    (cmd_update treeFx "20260101" "T1" packagesUrlFx).map
        (fun r => r.2.version) = .ok "20260101.1" ∧
    (do
      let r ← cmd_update treeFx "20260101" "T1" packagesUrlFx
      let r2 ← cmd_update r.1 "20260101" "T2" packagesUrlFx
      pure (r2.2.version, decide (r2.2.packages = r.2.packages))) =
      .ok ("20260101.2", true) ∧
    ("20260101.1" : String) ≠ "20260101.2" :=
  ⟨rfl, rfl, by decide⟩

/-- C10 (counterexample): reading the fixture document (which has no
`logging` key) and writing it back emits `"logging": {}` although the
value equals the field's (factory) default — the claim says declared fields
equal to their default are omitted. -/
theorem c10_counterexample :
    (Profile.from_json objFx).map
        (fun p => (dictGet (Profile.to_json p) "logging",
                   dictGet (Profile.to_json p) "fancy")) =
      .ok (some (Json.obj []), some (Json.str "kept")) ∧
    (some (Json.obj []) : Option Json) ≠ none :=
  ⟨rfl, fun h => Option.noConfusion h⟩

/-- C5 (amended): `Profile.merge` is an in-place update — whenever the call
succeeds, its Python return value is `None`, never a new `Profile`; the
merged value lives in the mutated base (whose post-call state is the pair's
first component), and the overlay operand is only read. -/
theorem c5_merge_returns_none (b o : Profile) (r : Profile × Option Profile)
    (h : Profile.merge b o = .ok r) : r.2 = none := by
  unfold Profile.merge at h
  cases hms : Profile.mergeState b o with
  | error e =>
    rw [hms] at h
    simp [Except.map] at h
  | ok s =>
    rw [hms] at h
    simp only [Except.map, Except.ok.injEq] at h
    rw [← h]

/-- C5 (witness): the theorem applied to the all-null profiles. -/
theorem c5_merge_returns_none_witness :
    ((nullProfile, (none : Option Profile)) : Profile × Option Profile).2 = none :=
  c5_merge_returns_none nullProfile nullProfile (nullProfile, none) rfl

/-- C6 (amended): merging a base profile with the all-null/empty overlay
yields the base with the five always-copied required fields (`id`, `time`,
`releaseTime`, `type`, `mainClass`) overwritten with the overlay's nulls and
with every other field — `inheritsFrom` included — unchanged (libraries stay
as they are when their names are distinct; `inheritsFrom` is cleared only by
`full_profile`, after the merge call); the Python return value is `None`. -/
theorem c6_null_overlay_merge (b : Profile)
    (h : (b.libraries.map Library.name).Nodup) :
    Profile.merge b nullProfile =
      .ok ({ b with id := none, time := none, releaseTime := none,
                    type := none, mainClass := none }, none) := by
  have h1 : Profile.mergeState b nullProfile =
      .ok { b with id := none, time := none, releaseTime := none,
                   type := none, mainClass := none,
                   libraries := dedupLibraries b.libraries } := rfl
  unfold Profile.merge
  rw [h1]
  simp only [Except.map]
  rw [dedupLibraries_nodup b.libraries h]

/-- C6 (witness): the theorem applied to the fixture base profile. -/
theorem c6_null_overlay_merge_witness :
    Profile.merge profBaseFx nullProfile =
      .ok ({ profBaseFx with id := none, time := none, releaseTime := none,
                             type := none, mainClass := none }, none) :=
  c6_null_overlay_merge profBaseFx (by decide)

/-- C1 (amended): for name-distinct library lists, a successful merge's
library list is: the overlay's entries in the overlay's own order — but with
every name that also occurs in the base replaced by the *base's* entry
(base wins collisions) — followed by the base-only entries in base order.
In particular a name occurring in both lists yields exactly one merged
entry, carrying the base's payload. -/
theorem c1_library_merge_base_wins (b o m : Profile) (r : Option Profile)
    (hb : (b.libraries.map Library.name).Nodup)
    (ho : (o.libraries.map Library.name).Nodup)
    (h : Profile.merge b o = .ok (m, r)) :
    m.libraries =
      o.libraries.map (fun l =>
        match b.libraries.find? (fun x => x.name = l.name) with
        | some bl => bl
        | none => l) ++
      b.libraries.filter (fun l => !(o.libraries.any (fun x => x.name = l.name))) := by
  unfold Profile.merge at h
  cases hms : Profile.mergeState b o with
  | error e =>
    rw [hms] at h
    simp [Except.map] at h
  | ok st =>
    rw [hms] at h
    simp only [Except.map, Except.ok.injEq, Prod.mk.injEq] at h
    unfold Profile.mergeState at hms
    simp only [bind] at hms
    cases hf : Profile.mergeFront b o with
    | error e =>
      rw [hf] at hms
      simp [Except.bind] at hms
    | ok s1 =>
      rw [hf] at hms
      simp only [Except.bind] at hms
      have hlib := (mergeBack_fields s1 o st hms).2.2.1
      have hfl := (mergeFront_fields b o s1 hf).1
      rw [← h.1, hlib, hfl, dedupLibraries_append o.libraries b.libraries ho hb]

/-- C1 (witness): the theorem applied to the fixture profiles, whose lists
collide on `g:a:1.0`. -/
theorem c1_library_merge_base_wins_witness :
    ((Profile.merge profBaseFx profOverlayFx).toOption.getD (nullProfile, none)).1.libraries =
      profOverlayFx.libraries.map (fun l =>
        match profBaseFx.libraries.find? (fun x => x.name = l.name) with
        | some bl => bl
        | none => l) ++
      profBaseFx.libraries.filter
        (fun l => !(profOverlayFx.libraries.any (fun x => x.name = l.name))) :=
  c1_library_merge_base_wins profBaseFx profOverlayFx
    ((Profile.merge profBaseFx profOverlayFx).toOption.getD (nullProfile, none)).1
    none (by decide) (by decide) rfl

/-- C7 (amended): for merged profiles built by the constructor (so that each
side's `minecraftArguments` is the space-join of its own game strings, as
`__post_init__` establishes), whose `arguments` are both non-null and whose
game lists each contain at least one string entry, the merged
`minecraftArguments` equals the space-join of the string entries of the
concatenated game lists (base's then overlay's), regardless of any raw
`minecraftArguments` string passed to the overlay's constructor (it was
already overwritten at construction).  Without the non-emptiness conditions
the stray separator of `+= " " +` breaks the invariant (see the
counterexample). -/
theorem c7_minecraft_arguments_consistency (b o : Profile) (ga go : Arguments)
    (m : Profile) (r : Option Profile)
    (hb : b.arguments = some ga) (ho : o.arguments = some go)
    (hbm : b.minecraftArguments = some (Profile.build_minecraft_arguments ga))
    (hom : o.minecraftArguments = some (Profile.build_minecraft_arguments go))
    (hga : ga.game.filterMap jsonStr? ≠ [])
    (hgo : go.game.filterMap jsonStr? ≠ [])
    (h : Profile.merge b o = .ok (m, r)) :
    m.arguments = some { ga with game := ga.game ++ go.game } ∧
    m.minecraftArguments =
      some (Profile.build_minecraft_arguments { ga with game := ga.game ++ go.game }) := by
  unfold Profile.merge at h
  cases hms : Profile.mergeState b o with
  | error e =>
    rw [hms] at h
    simp [Except.map] at h
  | ok st =>
    rw [hms] at h
    simp only [Except.map, Except.ok.injEq, Prod.mk.injEq] at h
    unfold Profile.mergeState at hms
    simp only [bind] at hms
    have hf : Profile.mergeFront b o =
        .ok { b with id := o.id, time := o.time, releaseTime := o.releaseTime,
                     type := o.type, mainClass := o.mainClass,
                     logging := dictUpdate b.logging o.logging,
                     arguments := some { ga with game := ga.game ++ go.game },
                     minecraftArguments :=
                       some (Profile.build_minecraft_arguments ga ++ " " ++
                             Profile.build_minecraft_arguments go) } := by
      unfold Profile.mergeFront
      rw [hb, ho, hbm, hom]
      rfl
    rw [hf] at hms
    simp only [Except.bind] at hms
    obtain ⟨hargs, hmca, -, -, -⟩ := mergeBack_fields _ o st hms
    have hbuild : Profile.build_minecraft_arguments { ga with game := ga.game ++ go.game } =
        Profile.build_minecraft_arguments ga ++ " " ++ Profile.build_minecraft_arguments go := by
      unfold Profile.build_minecraft_arguments
      rw [List.filterMap_append]
      exact pyJoin_append " " _ _ hga hgo
    refine ⟨?_, ?_⟩
    · rw [← h.1, hargs]
    · rw [← h.1, hmca, hbuild]

/-- C7 (witness): the theorem applied to the constructed fixtures with game
lists `["a"]` and `["z"]`. -/
theorem c7_minecraft_arguments_consistency_witness :
    ((Profile.merge profArgBaseFx profArgWitnessFx).toOption.getD (nullProfile, none)).1.arguments =
      some { game := [Json.str "a", Json.str "z"] } ∧
    ((Profile.merge profArgBaseFx profArgWitnessFx).toOption.getD (nullProfile, none)).1.minecraftArguments =
      some (Profile.build_minecraft_arguments { game := [Json.str "a", Json.str "z"] }) :=
  c7_minecraft_arguments_consistency profArgBaseFx profArgWitnessFx
    { game := [Json.str "a"] } { game := [Json.str "z"] }
    ((Profile.merge profArgBaseFx profArgWitnessFx).toOption.getD (nullProfile, none)).1
    none rfl rfl rfl rfl (by decide) (by decide) rfl

/-! ### Index-builder lemmas -/

/-- Characterization of the `cmd_update` fold: the directories are mapped by
`updEntry` and the manifest dict collects the `updIp` entries. -/
theorem cmdUpdate_fold_char (prev : IndexPackageManifest) (nv nt url : String) :
    ∀ (dirs d0 : List (String × Option Pack)) (p0 : List (String × IndexPackage)),
    dirs.foldl (cmdUpdateStep prev nv nt url) (d0, p0) =
      (d0 ++ dirs.map (updEntry prev nv nt),
       dictUpdate p0 (dirs.filterMap (updIp prev nv nt url))) := by
  intro dirs
  induction dirs with
  | nil => intro d0 p0; simp [dictUpdate]
  | cons e ds ih =>
    intro d0 p0
    rcases e with ⟨n, oc⟩
    cases oc with
    | none =>
      simp only [List.foldl_cons, cmdUpdateStep, List.map_cons, List.filterMap_cons,
        updEntry, updIp]
      rw [ih]
      simp
    | some c =>
      cases hg : dictGet prev.packages c.id with
      | some ip =>
        by_cases hsha : ip.sha1 = c
        · simp only [List.foldl_cons, cmdUpdateStep, hg, if_pos hsha, List.map_cons,
            List.filterMap_cons, updEntry, updIp]
          rw [ih]
          simp [dictUpdate_cons]
        · simp only [List.foldl_cons, cmdUpdateStep, hg, if_neg hsha, List.map_cons,
            List.filterMap_cons, updEntry, updIp]
          rw [ih]
          simp [dictUpdate_cons]
      | none =>
        simp only [List.foldl_cons, cmdUpdateStep, hg, List.map_cons,
          List.filterMap_cons, updEntry, updIp]
        rw [ih]
        simp [dictUpdate_cons]

/-- After a run, the ids of the written package files are the keys of the
collected manifest entries, in order. -/
theorem contentIds_eq_keys (prev : IndexPackageManifest) (nv nt url : String) :
    ∀ dirs : List (String × Option Pack),
    ((dirs.map (updEntry prev nv nt)).filterMap (fun e => e.2)).map Pack.id =
      (dirs.filterMap (updIp prev nv nt url)).map Prod.fst := by
  intro dirs
  induction dirs with
  | nil => rfl
  | cons e ds ih =>
    rcases e with ⟨n, oc⟩
    cases oc with
    | none => simpa [updEntry, updIp, List.filterMap_cons] using ih
    | some c =>
      cases hg : dictGet prev.packages c.id with
      | some ip =>
        by_cases hsha : ip.sha1 = c
        · simpa [updEntry, updIp, List.filterMap_cons, hg, hsha] using ih
        · simpa [updEntry, updIp, List.filterMap_cons, hg, hsha] using ih
      | none => simpa [updEntry, updIp, List.filterMap_cons, hg] using ih

/-- Every package file written by a run has a matching manifest entry whose
stored hash is the file's content. -/
theorem mem_content_imp (prev : IndexPackageManifest) (nv nt url : String)
    (dirs : List (String × Option Pack)) (n : String) (c : Pack)
    (h : (n, some c) ∈ dirs.map (updEntry prev nv nt)) :
    ∃ ip, (c.id, ip) ∈ dirs.filterMap (updIp prev nv nt url) ∧ ip.sha1 = c := by
  obtain ⟨d, hd, hde⟩ := List.mem_map.mp h
  rcases d with ⟨n', oc⟩
  cases oc with
  | none => simp [updEntry] at hde
  | some c0 =>
    cases hg : dictGet prev.packages c0.id with
    | some ip =>
      by_cases hsha : ip.sha1 = c0
      · have hde' : (n', some c0) = ((n, some c) : String × Option Pack) := by
          rw [← hde]
          simp [updEntry, hg, hsha]
        injection hde' with h1 h2
        have hC := Option.some.inj h2
        subst hC
        exact ⟨ip, List.mem_filterMap.mpr
          ⟨(n', some c0), hd, by simp [updIp, hg, hsha]⟩, hsha⟩
      · have hde' : (n', some { c0 with version := nv, time := nt }) =
            ((n, some c) : String × Option Pack) := by
          rw [← hde]
          simp [updEntry, hg, hsha]
        injection hde' with h1 h2
        have hC := Option.some.inj h2
        subst hC
        refine ⟨IndexPackage.from_package { c0 with version := nv, time := nt }
          (urljoin url (n' ++ "/")), List.mem_filterMap.mpr
            ⟨(n', some c0), hd, by simp [updIp, hg, hsha]⟩, rfl⟩
    | none =>
      have hde' : (n', some { c0 with version := nv, time := nt }) =
          ((n, some c) : String × Option Pack) := by
        rw [← hde]
        simp [updEntry, hg]
      injection hde' with h1 h2
      have hC := Option.some.inj h2
      subst hC
      refine ⟨IndexPackage.from_package { c0 with version := nv, time := nt }
        (urljoin url (n' ++ "/")), List.mem_filterMap.mpr
          ⟨(n', some c0), hd, by simp [updIp, hg]⟩, rfl⟩

/-- `List.filterMap` only depends on the function's values on the list. -/
theorem listFilterMap_congr {β γ : Type} (l : List β) (f g : β → Option γ)
    (h : ∀ y ∈ l, f y = g y) : l.filterMap f = l.filterMap g := by
  induction l with
  | nil => rfl
  | cons x xs ih =>
    rw [List.filterMap_cons, List.filterMap_cons, h x (by simp),
      ih (fun y hy => h y (by simp [hy]))]

/-- With distinct keys, a member of a dict is what lookup finds. -/
theorem dictGet_of_mem_nodup {α : Type} (m : List (String × α)) (k : String) (v : α)
    (hm : (k, v) ∈ m) (hnd : (m.map Prod.fst).Nodup) : dictGet m k = some v := by
  induction m with
  | nil => cases hm
  | cons e es ih =>
    rcases List.mem_cons.mp hm with h | h
    · subst h
      simp [dictGet_cons]
    · have hne : e.1 ≠ k := by
        intro hc
        simp only [List.map_cons, List.nodup_cons] at hnd
        exact hnd.1 (hc ▸ List.mem_map.mpr ⟨(k, v), h, rfl⟩)
      rcases e with ⟨ek, ev⟩
      rw [dictGet_cons, if_neg hne]
      exact ih h (by
        simp only [List.map_cons, List.nodup_cons] at hnd
        exact hnd.2)

/-- `canonEntries` skips a directory without `modpack.json`. -/
theorem canonEntries_cons_none (pkgs : List (String × IndexPackage)) (n : String)
    (ds : List (String × Option Pack)) :
    canonEntries pkgs ((n, none) :: ds) = canonEntries pkgs ds := by
  simp [canonEntries, List.filterMap_cons]

/-- `canonEntries` on a directory whose content's id is found. -/
theorem canonEntries_cons_some (pkgs : List (String × IndexPackage)) (n : String)
    (c : Pack) (ds : List (String × Option Pack)) (ip : IndexPackage)
    (h : dictGet pkgs c.id = some ip) :
    canonEntries pkgs ((n, some c) :: ds) = (c.id, ip) :: canonEntries pkgs ds := by
  simp [canonEntries, List.filterMap_cons, h]

/-- A head entry whose key no directory content carries is skipped by every
lookup. -/
theorem canonEntries_skip (k : String) (ip : IndexPackage)
    (es : List (String × IndexPackage)) (ds : List (String × Option Pack))
    (h : ∀ n c, (n, some c) ∈ ds → c.id ≠ k) :
    canonEntries ((k, ip) :: es) ds = canonEntries es ds := by
  unfold canonEntries
  apply listFilterMap_congr
  intro e he
  rcases e with ⟨n, oc⟩
  cases oc with
  | none => rfl
  | some c =>
    have hne : k ≠ c.id := fun hc => (h n c he) hc.symm
    simp only [Option.some_bind, dictGet_cons, if_neg hne]

/-- Looking the freshly collected entries up against the freshly written
directories reproduces the entries (given distinct keys). -/
theorem canon_of_run (prev : IndexPackageManifest) (nv nt url : String) :
    ∀ dirs : List (String × Option Pack),
    ((dirs.filterMap (updIp prev nv nt url)).map Prod.fst).Nodup →
    canonEntries (dirs.filterMap (updIp prev nv nt url))
        (dirs.map (updEntry prev nv nt)) =
      dirs.filterMap (updIp prev nv nt url) := by
  intro dirs
  induction dirs with
  | nil => intro; rfl
  | cons e ds ih =>
    intro hnd
    rcases e with ⟨n, oc⟩
    cases oc with
    | none =>
      simp only [updIp, updEntry, List.filterMap_cons, List.map_cons] at hnd ⊢
      simp only [canonEntries, List.filterMap_cons, Option.none_bind]
      exact ih hnd
    | some c =>
      have hskip : ∀ (key : String) (ip0 : IndexPackage) (cstar : Pack),
          updIp prev nv nt url (n, some c) = some (key, ip0) →
          updEntry prev nv nt (n, some c) = (n, some cstar) →
          key = cstar.id → ip0.sha1 = cstar →
          canonEntries ((key, ip0) :: ds.filterMap (updIp prev nv nt url))
              ((n, some cstar) :: ds.map (updEntry prev nv nt)) =
            (key, ip0) :: ds.filterMap (updIp prev nv nt url) := by
        intro key ip0 cstar hip hent hkey hsha
        subst hkey
        rw [List.filterMap_cons, hip] at hnd
        simp only [List.map_cons, List.nodup_cons] at hnd
        have hfresh : cstar.id ∉ (ds.filterMap (updIp prev nv nt url)).map Prod.fst := hnd.1
        have htail : (ds.filterMap (updIp prev nv nt url)).map Prod.fst |>.Nodup := hnd.2
        rw [canonEntries_cons_some _ n cstar _ ip0 (by simp [dictGet_cons])]
        congr 1
        rw [canonEntries_skip cstar.id ip0 _ _ ?hfresh]
        · exact ih htail
        case hfresh =>
          intro n2 c2 hm2 hc
          apply hfresh
          rw [← hc, ← contentIds_eq_keys prev nv nt url ds]
          exact List.mem_map.mpr ⟨c2, List.mem_filterMap.mpr ⟨(n2, some c2), hm2, rfl⟩, rfl⟩
      cases hg : dictGet prev.packages c.id with
      | some ip =>
        by_cases hsha : ip.sha1 = c
        · have h1 : updIp prev nv nt url (n, some c) = some (c.id, ip) := by
            simp [updIp, hg, hsha]
          have h2 : updEntry prev nv nt (n, some c) = (n, some c) := by
            simp [updEntry, hg, hsha]
          have := hskip c.id ip c h1 h2 rfl hsha
          simp only [List.filterMap_cons, List.map_cons, h1, h2] at this ⊢
          exact this
        · have h1 : updIp prev nv nt url (n, some c) =
              some (c.id, IndexPackage.from_package { c with version := nv, time := nt }
                (urljoin url (n ++ "/"))) := by
            simp [updIp, hg, hsha]
          have h2 : updEntry prev nv nt (n, some c) =
              (n, some { c with version := nv, time := nt }) := by
            simp [updEntry, hg, hsha]
          have := hskip c.id _ { c with version := nv, time := nt } h1 h2 rfl rfl
          simp only [List.filterMap_cons, List.map_cons, h1, h2] at this ⊢
          exact this
      | none =>
        have h1 : updIp prev nv nt url (n, some c) =
            some (c.id, IndexPackage.from_package { c with version := nv, time := nt }
              (urljoin url (n ++ "/"))) := by
          simp [updIp, hg]
        have h2 : updEntry prev nv nt (n, some c) =
            (n, some { c with version := nv, time := nt }) := by
          simp [updEntry, hg]
        have := hskip c.id _ { c with version := nv, time := nt } h1 h2 rfl rfl
        simp only [List.filterMap_cons, List.map_cons, h1, h2] at this ⊢
        exact this

/-- A run whose every package file already hash-matches a manifest entry
rewrites nothing and collects exactly the looked-up entries. -/
theorem second_run_entries (M : IndexPackageManifest) (v t u : String) :
    ∀ ds : List (String × Option Pack),
    (∀ n c, (n, some c) ∈ ds → ∃ ip, dictGet M.packages c.id = some ip ∧ ip.sha1 = c) →
    ds.map (updEntry M v t) = ds ∧
    ds.filterMap (updIp M v t u) = canonEntries M.packages ds := by
  intro ds
  induction ds with
  | nil => intro; exact ⟨rfl, rfl⟩
  | cons e ds ih =>
    intro h
    obtain ⟨h1, h2⟩ := ih (fun n c hm => h n c (List.mem_cons_of_mem _ hm))
    rcases e with ⟨n, oc⟩
    cases oc with
    | none =>
      refine ⟨?_, ?_⟩
      · simp [updEntry, h1]
      · simp only [canonEntries, List.filterMap_cons, Option.none_bind, updIp]
        simpa [canonEntries] using h2
    | some c =>
      obtain ⟨ip, hg, hsha⟩ := h n c (List.mem_cons_self _ _)
      refine ⟨?_, ?_⟩
      · simp only [List.map_cons, updEntry, hg, if_pos hsha, h1]
      · simp only [List.filterMap_cons, updIp, hg, if_pos hsha, canonEntries,
          Option.some_bind, Option.map_some']
        simpa [canonEntries] using h2

/-- Characterization of one successful `cmd_update` run. -/
theorem cmd_update_char (st : PackagesTree) (today now url : String)
    (st1 : PackagesTree) (m1 : IndexPackageManifest)
    (h : cmd_update st today now url = .ok (st1, m1)) :
    ∃ prev nv, get_latest_manifest st today now = .ok prev ∧
      calc_version today (some prev.version) = .ok nv ∧
      st1 = { dirs := st.dirs.map (updEntry prev nv now), indexFile := some m1 } ∧
      m1 = { version := nv, time := now, launcher := prev.launcher,
             packages := dictOfList (st.dirs.filterMap (updIp prev nv now url)) } := by
  unfold cmd_update at h
  cases hp : get_latest_manifest st today now with
  | error e =>
    rw [hp] at h
    simp [bind, Except.bind] at h
  | ok prev =>
    rw [hp] at h
    simp only [bind, Except.bind] at h
    cases hv : calc_version today (some prev.version) with
    | error e =>
      rw [hv] at h
      simp [Except.bind] at h
    | ok nv =>
      rw [hv] at h
      simp only [pure, Except.pure] at h
      rw [cmdUpdate_fold_char prev nv now url st.dirs [] []] at h
      simp only [List.nil_append, Except.ok.injEq, Prod.mk.injEq] at h
      refine ⟨prev, nv, rfl, hv, ?_, ?_⟩
      · rw [← h.1, ← h.2]
      · rw [← h.2]
        rfl

/-- C3 (amended): running `cmd_update` twice in succession with no file
change in between — and with distinct package ids — rewrites no package
manifest and carries every `IndexPackage` forward unchanged; the second
manifest is identical to the first except its top-level `version` (bumped on
every run) and `time`. -/
theorem c3_reindex_carries_packages
    (st st1 : PackagesTree) (m1 : IndexPackageManifest)
    (today now1 today2 now2 url v2 : String)
    (h1 : cmd_update st today now1 url = .ok (st1, m1))
    (hids : ((st1.dirs.filterMap (fun e => e.2)).map Pack.id).Nodup)
    (hv : calc_version today2 (some m1.version) = .ok v2) :
    cmd_update st1 today2 now2 url =
      .ok ({ dirs := st1.dirs,
             indexFile := some { version := v2, time := now2,
                                 launcher := m1.launcher, packages := m1.packages } },
           { version := v2, time := now2, launcher := m1.launcher,
             packages := m1.packages }) := by
  obtain ⟨prev, nv, hp, hnv, hst1, hm1⟩ := cmd_update_char st today now1 url st1 m1 h1
  have hdirs : st1.dirs = st.dirs.map (updEntry prev nv now1) := by rw [hst1]
  have hkeys : ((st.dirs.filterMap (updIp prev nv now1 url)).map Prod.fst).Nodup := by
    rw [← contentIds_eq_keys prev nv now1 url st.dirs]
    rw [hdirs] at hids
    exact hids
  have hpkgs : m1.packages = st.dirs.filterMap (updIp prev nv now1 url) := by
    rw [hm1]
    exact dictOfList_nodup _ hkeys
  have hidx : st1.indexFile = some m1 := by rw [hst1]
  have hlook : ∀ n c, (n, some c) ∈ st1.dirs →
      ∃ ip, dictGet m1.packages c.id = some ip ∧ ip.sha1 = c := by
    intro n c hm
    rw [hdirs] at hm
    obtain ⟨ip, hmem, hsha⟩ := mem_content_imp prev nv now1 url st.dirs n c hm
    exact ⟨ip, by rw [hpkgs]; exact dictGet_of_mem_nodup _ c.id ip hmem hkeys, hsha⟩
  obtain ⟨hmap, hfm⟩ := second_run_entries m1 v2 now2 url st1.dirs hlook
  have hcanon : canonEntries m1.packages st1.dirs = m1.packages := by
    rw [hpkgs, hdirs]
    exact canon_of_run prev nv now1 url st.dirs hkeys
  have hglm : get_latest_manifest st1 today2 now2 = .ok m1 := by
    unfold get_latest_manifest
    rw [hidx]
  unfold cmd_update
  rw [hglm]
  simp only [bind, Except.bind]
  rw [hv]
  simp only [pure, Except.pure]
  rw [cmdUpdate_fold_char m1 v2 now2 url st1.dirs [] []]
  rw [hmap, hfm, hcanon]
  simp only [List.nil_append, pure, Except.pure]
  have : dictOfList m1.packages = m1.packages := by
    rw [hpkgs]
    exact dictOfList_nodup _ hkeys
  unfold dictOfList at this
  rw [this]

/-- C3 (witness): the theorem applied to the one-package fixture tree. -/
theorem c3_reindex_carries_packages_witness :
    cmd_update run1Fx.1 "20260101" "T2" packagesUrlFx =
      .ok ({ dirs := run1Fx.1.dirs,
             indexFile := some { version := "20260101.2", time := "T2",
                                 launcher := run1Fx.2.launcher,
                                 packages := run1Fx.2.packages } },
           { version := "20260101.2", time := "T2",
             launcher := run1Fx.2.launcher, packages := run1Fx.2.packages }) :=
  c3_reindex_carries_packages treeFx run1Fx.1 run1Fx.2 "20260101" "T1" "20260101"
    "T2" packagesUrlFx "20260101.2" rfl (by decide) rfl

/-! ### Serialization lemmas -/

/-- `__post_init__` does not touch the dynamic attributes. -/
theorem postInit_extra (x : Profile) : (Profile.postInit x).extra = x.extra := by
  unfold Profile.postInit
  cases x.arguments <;> rfl

/-- `__post_init__` does not touch `jar`, `logging` or `libraries`. -/
theorem postInit_fields (x : Profile) :
    (Profile.postInit x).jar = x.jar ∧ (Profile.postInit x).logging = x.logging ∧
    (Profile.postInit x).libraries = x.libraries := by
  unfold Profile.postInit
  cases x.arguments <;> exact ⟨rfl, rfl, rfl⟩

/-- Lookup skips a prefix none of whose keys is the one sought. -/
theorem dictGet_append_right {α : Type} (a b : List (String × α)) (k : String)
    (h : ∀ e ∈ a, e.1 ≠ k) : dictGet (a ++ b) k = dictGet b k := by
  induction a with
  | nil => rfl
  | cons e es ih =>
    rcases e with ⟨ek, ev⟩
    rw [List.cons_append, dictGet_cons, if_neg (h (ek, ev) (by simp))]
    exact ih (fun e' he' => h e' (by simp [he']))

/-- Lookup of a different key passes through a key-removing filter. -/
theorem dictGet_filter_ne {α : Type} (l : List (String × α)) (k k' : String)
    (h : k ≠ k') : dictGet (l.filter (fun e => e.1 ≠ k')) k = dictGet l k := by
  induction l with
  | nil => rfl
  | cons e es ih =>
    rcases e with ⟨ek, ev⟩
    by_cases hk : ek = k'
    · rw [List.filter_cons]
      rw [show (decide ((ek, ev).1 ≠ k')) = false from by simp [hk]]
      simp only [Bool.false_eq_true, if_false]
      rw [ih, dictGet_cons, if_neg (by rw [hk]; exact fun hc => h hc.symm)]
    · rw [List.filter_cons]
      rw [show (decide ((ek, ev).1 ≠ k')) = true from by simpa using hk]
      simp only [if_pos trivial]
      rw [dictGet_cons, dictGet_cons]
      by_cases he : ek = k
      · rw [if_pos he, if_pos he]
      · rw [if_neg he, if_neg he, ih]

/-- Lookup of the removed key fails after its filter. -/
theorem dictGet_filter_self {α : Type} (l : List (String × α)) (k : String) :
    dictGet (l.filter (fun e => e.1 ≠ k)) k = none := by
  unfold dictGet
  rw [List.find?_eq_none.mpr]
  · rfl
  · intro e he
    have := (List.mem_filter.mp he).2
    simpa using this

/-- The keys `emitReqStr` emits. -/
theorem emitReqStr_key (k' : String) (v : Option String) :
    ∀ e ∈ emitReqStr k' v, e.1 = k' := by
  cases v <;> simp [emitReqStr]

/-- The keys `emitOptStr` emits. -/
theorem emitOptStr_key (k' : String) (v : Option String) :
    ∀ e ∈ emitOptStr k' v, e.1 = k' := by
  cases v <;> simp [emitOptStr]

/-- A segment whose entries all carry one key avoids any other key. -/
theorem seg_ne {α : Type} (seg : List (String × α)) (k' k : String)
    (hseg : ∀ e ∈ seg, e.1 = k') (hne : k ≠ k') : ∀ e ∈ seg, e.1 ≠ k :=
  fun e he hc => hne (((hseg e he).symm.trans hc).symm)

/-- A bind that produced a success: the action succeeded and the
continuation did too. -/
theorem exceptBind_ok {α β : Type} {m : Except String α}
    {k : α → Except String β} {b : β}
    (h : Except.bind m k = .ok b) : ∃ a, m = .ok a ∧ k a = .ok b := by
  cases m with
  | error e => exact absurd h (by simp [Except.bind])
  | ok a => exact ⟨a, rfl, h⟩

/-- A raised exception never binds into a success. -/
theorem exceptBindError_ne {α β : Type} {s : String}
    {k : α → Except String β} {b : β} :
    Except.bind (Except.error s) k ≠ Except.ok b :=
  fun h => Except.noConfusion h

/-- Step through a required string field of `Profile.from_json`: a success
means the continuation ran on some parsed value. -/
theorem reqStep {γ : Type} {o : Option Json} {s : String}
    {k : Option String → Except String γ} {b : γ}
    (h : (match o with
          | none => (Except.error s).bind k
          | some v => (asOptString v).bind k) = Except.ok b) :
    ∃ a, k a = Except.ok b := by
  cases o with
  | none => exact absurd h exceptBindError_ne
  | some v =>
    obtain ⟨a, ha, hk⟩ := exceptBind_ok h
    exact ⟨a, hk⟩

/-- Step through an optional string field of `Profile.from_json`. -/
theorem optStrStep {γ : Type} {o : Option Json}
    {k : Option String → Except String γ} {b : γ}
    (h : (match o with
          | none => (Except.ok (none : Option String)).bind k
          | some v => (asOptString v).bind k) = Except.ok b) :
    ∃ a, k a = Except.ok b := by
  cases o with
  | none =>
    obtain ⟨a, ha, hk⟩ := exceptBind_ok h
    exact ⟨a, hk⟩
  | some v =>
    obtain ⟨a, ha, hk⟩ := exceptBind_ok h
    exact ⟨a, hk⟩

/-- Step through the `logging` field of `Profile.from_json`. -/
theorem logStep {γ : Type} {o : Option Json} {s : String}
    {k : List (String × Json) → Except String γ} {b : γ}
    (h : (match o with
          | none => (Except.ok ([] : List (String × Json))).bind k
          | some (Json.obj kvs) => (Except.ok kvs).bind k
          | some _j => (Except.error s).bind k) = Except.ok b) :
    ∃ a, k a = Except.ok b := by
  match o with
  | none =>
    obtain ⟨a, ha, hk⟩ := exceptBind_ok h
    exact ⟨a, hk⟩
  | some (Json.obj kvs) =>
    obtain ⟨a, ha, hk⟩ := exceptBind_ok h
    exact ⟨a, hk⟩
  | some (Json.null) => exact absurd h exceptBindError_ne
  | some (Json.bool x) => exact absurd h exceptBindError_ne
  | some (Json.num x) => exact absurd h exceptBindError_ne
  | some (Json.str x) => exact absurd h exceptBindError_ne
  | some (Json.arr x) => exact absurd h exceptBindError_ne

/-- Step through the `arguments` field of `Profile.from_json`. -/
theorem argStep {γ : Type} {o : Option Json}
    {k : Option Arguments → Except String γ} {b : γ}
    (h : (match o with
          | none => (Except.ok (none : Option Arguments)).bind k
          | some Json.null => (Except.ok (none : Option Arguments)).bind k
          | some v => ((Arguments.ofJson v).map some).bind k) = Except.ok b) :
    ∃ a, k a = Except.ok b := by
  match o with
  | none =>
    obtain ⟨a, ha, hk⟩ := exceptBind_ok h
    exact ⟨a, hk⟩
  | some Json.null =>
    obtain ⟨a, ha, hk⟩ := exceptBind_ok h
    exact ⟨a, hk⟩
  | some (Json.bool x) =>
    obtain ⟨a, ha, hk⟩ := exceptBind_ok h
    exact ⟨a, hk⟩
  | some (Json.num x) =>
    obtain ⟨a, ha, hk⟩ := exceptBind_ok h
    exact ⟨a, hk⟩
  | some (Json.str x) =>
    obtain ⟨a, ha, hk⟩ := exceptBind_ok h
    exact ⟨a, hk⟩
  | some (Json.arr x) =>
    obtain ⟨a, ha, hk⟩ := exceptBind_ok h
    exact ⟨a, hk⟩
  | some (Json.obj x) =>
    obtain ⟨a, ha, hk⟩ := exceptBind_ok h
    exact ⟨a, hk⟩

/-- Step through the `libraries` field of `Profile.from_json`. -/
theorem libStep {γ : Type} {o : Option Json} {s : String}
    {k : List Library → Except String γ} {b : γ}
    (h : (match o with
          | none => (Except.ok ([] : List Library)).bind k
          | some (Json.arr xs) => (xs.mapM Library.from_json).bind k
          | some _j => (Except.error s).bind k) = Except.ok b) :
    ∃ a, k a = Except.ok b := by
  match o with
  | none =>
    obtain ⟨a, ha, hk⟩ := exceptBind_ok h
    exact ⟨a, hk⟩
  | some (Json.arr xs) =>
    obtain ⟨a, ha, hk⟩ := exceptBind_ok h
    exact ⟨a, hk⟩
  | some (Json.null) => exact absurd h exceptBindError_ne
  | some (Json.bool x) => exact absurd h exceptBindError_ne
  | some (Json.num x) => exact absurd h exceptBindError_ne
  | some (Json.str x) => exact absurd h exceptBindError_ne
  | some (Json.obj x) => exact absurd h exceptBindError_ne

/-- Whatever `Profile.from_json` accepts keeps exactly the undeclared keys
as dynamic attributes, in document order. -/
theorem from_json_extra (obj : JObj) (p : Profile)
    (h : Profile.from_json obj = .ok p) : p.extra = undeclaredOf obj := by
  unfold Profile.from_json at h
  simp only [popKey, bind, pure, Except.pure] at h
  obtain ⟨a1, h⟩ := reqStep h
  obtain ⟨a2, h⟩ := reqStep h
  obtain ⟨a3, h⟩ := reqStep h
  obtain ⟨a4, h⟩ := reqStep h
  obtain ⟨a5, h⟩ := reqStep h
  obtain ⟨a6, h⟩ := logStep h
  obtain ⟨a7, h⟩ := argStep h
  obtain ⟨a8, h⟩ := optStrStep h
  obtain ⟨a9, h⟩ := libStep h
  obtain ⟨a10, h⟩ := optStrStep h
  obtain ⟨a11, h⟩ := optStrStep h
  obtain ⟨a12, h⟩ := optStrStep h
  exact ((congrArg Profile.extra (Except.ok.inj h)).symm.trans (postInit_extra _))

/-- A required-field segment whose key differs is skipped by lookup. -/
theorem dictGet_emitReq_skip (kk : String) (v : Option String) (rest : JObj)
    (k : String) (h : k ≠ kk) :
    dictGet (emitReqStr kk v ++ rest) k = dictGet rest k :=
  dictGet_append_right _ _ _ (seg_ne _ _ _ (emitReqStr_key _ _) h)

/-- An optional-field segment whose key differs is skipped by lookup. -/
theorem dictGet_emitOpt_skip (kk : String) (v : Option String) (rest : JObj)
    (k : String) (h : k ≠ kk) :
    dictGet (emitOptStr kk v ++ rest) k = dictGet rest k :=
  dictGet_append_right _ _ _ (seg_ne _ _ _ (emitOptStr_key _ _) h)

/-- A one-entry segment whose key differs is skipped by lookup. -/
theorem dictGet_single_skip {α : Type} (kk : String) (v : α)
    (rest : List (String × α)) (k : String) (h : k ≠ kk) :
    dictGet ([(kk, v)] ++ rest) k = dictGet rest k := by
  rw [List.singleton_append, dictGet_cons, if_neg (fun hc => h hc.symm)]

/-- A one-entry segment whose key matches is the lookup's answer. -/
theorem dictGet_single_hit {α : Type} (k : String) (v : α)
    (rest : List (String × α)) : dictGet ([(k, v)] ++ rest) k = some v := by
  rw [List.singleton_append, dictGet_cons, if_pos rfl]

/-- `None` for a plain-default field emits nothing. -/
theorem emitOptStr_none (k : String) : emitOptStr k none = [] := rfl

/-- Lookup of an undeclared key on the serialized profile lands in the
dynamic attributes: every declared segment is skipped. -/
theorem to_json_undeclared (p : Profile) (k : String)
    (hk : k ∉ profileDeclaredKeys) :
    dictGet (Profile.to_json p) k = dictGet p.extra k := by
  simp only [profileDeclaredKeys, List.mem_cons, List.not_mem_nil, or_false,
    not_or] at hk
  obtain ⟨h1, h2, h3, h4, h5, h6, h7, h8, h9, h10, h11, h12, h13, h14, h15⟩ := hk
  obtain ⟨pid, ptime, prel, ptype, pmain, plog, parg, pmca, pmlv, plib, pjar,
    pinh, pai, pdl, pass, pex⟩ := p
  simp only [Profile.to_json]
  rcases parg with _ | a <;> rcases pmlv with _ | b <;>
    rcases pai with _ | c <;> rcases pdl with _ | d <;>
    simp only [List.append_assoc, dictGet_emitReq_skip, dictGet_emitOpt_skip,
      dictGet_single_skip, List.nil_append, ne_eq, not_false_eq_true,
      h1, h2, h3, h4, h5, h6, h7, h8, h9, h10, h11, h12, h13, h14, h15]

/-- `logging` has a factory default, so it is always serialized. -/
theorem to_json_logging (p : Profile) :
    dictGet (Profile.to_json p) "logging" = some (Json.obj p.logging) := by
  have n1 : ("logging" : String) ≠ "id" := by decide
  have n2 : ("logging" : String) ≠ "time" := by decide
  have n3 : ("logging" : String) ≠ "releaseTime" := by decide
  have n4 : ("logging" : String) ≠ "type" := by decide
  have n5 : ("logging" : String) ≠ "mainClass" := by decide
  simp only [Profile.to_json, List.append_assoc]
  rw [dictGet_emitReq_skip _ _ _ _ n1, dictGet_emitReq_skip _ _ _ _ n2,
    dictGet_emitReq_skip _ _ _ _ n3, dictGet_emitReq_skip _ _ _ _ n4,
    dictGet_emitReq_skip _ _ _ _ n5, dictGet_single_hit]

/-- `libraries` has a factory default, so it is always serialized. -/
theorem to_json_libraries (p : Profile) :
    dictGet (Profile.to_json p) "libraries" =
      some (Json.arr (p.libraries.map (fun l => Json.obj l.to_json))) := by
  have n1 : ("libraries" : String) ≠ "id" := by decide
  have n2 : ("libraries" : String) ≠ "time" := by decide
  have n3 : ("libraries" : String) ≠ "releaseTime" := by decide
  have n4 : ("libraries" : String) ≠ "type" := by decide
  have n5 : ("libraries" : String) ≠ "mainClass" := by decide
  have n6 : ("libraries" : String) ≠ "logging" := by decide
  have n7 : ("libraries" : String) ≠ "arguments" := by decide
  have n8 : ("libraries" : String) ≠ "minecraftArguments" := by decide
  have n9 : ("libraries" : String) ≠ "minimumLauncherVersion" := by decide
  obtain ⟨pid, ptime, prel, ptype, pmain, plog, parg, pmca, pmlv, plib, pjar,
    pinh, pai, pdl, pass, pex⟩ := p
  simp only [Profile.to_json]
  rcases parg with _ | a <;> rcases pmlv with _ | b <;>
    simp only [List.append_assoc, dictGet_emitReq_skip, dictGet_emitOpt_skip,
      dictGet_single_skip, dictGet_single_hit, List.nil_append, ne_eq,
      not_false_eq_true, n1, n2, n3, n4, n5, n6, n7, n8, n9]

/-- A `None`-valued `jar` is omitted; lookup falls to the dynamic
attributes. -/
theorem to_json_jar_none (p : Profile) (hjar : p.jar = none) :
    dictGet (Profile.to_json p) "jar" = dictGet p.extra "jar" := by
  have n1 : ("jar" : String) ≠ "id" := by decide
  have n2 : ("jar" : String) ≠ "time" := by decide
  have n3 : ("jar" : String) ≠ "releaseTime" := by decide
  have n4 : ("jar" : String) ≠ "type" := by decide
  have n5 : ("jar" : String) ≠ "mainClass" := by decide
  have n6 : ("jar" : String) ≠ "logging" := by decide
  have n7 : ("jar" : String) ≠ "arguments" := by decide
  have n8 : ("jar" : String) ≠ "minecraftArguments" := by decide
  have n9 : ("jar" : String) ≠ "minimumLauncherVersion" := by decide
  have n10 : ("jar" : String) ≠ "libraries" := by decide
  have n11 : ("jar" : String) ≠ "inheritsFrom" := by decide
  have n12 : ("jar" : String) ≠ "assetIndex" := by decide
  have n13 : ("jar" : String) ≠ "downloads" := by decide
  have n14 : ("jar" : String) ≠ "assets" := by decide
  obtain ⟨pid, ptime, prel, ptype, pmain, plog, parg, pmca, pmlv, plib, pjar,
    pinh, pai, pdl, pass, pex⟩ := p
  cases hjar
  simp only [Profile.to_json]
  rcases parg with _ | a <;> rcases pmlv with _ | b <;>
    rcases pai with _ | c <;> rcases pdl with _ | d <;>
    simp only [List.append_assoc, dictGet_emitReq_skip, dictGet_emitOpt_skip,
      dictGet_single_skip, dictGet_single_hit, emitOptStr_none,
      List.nil_append, ne_eq, not_false_eq_true, n1, n2, n3, n4, n5, n6, n7,
      n8, n9, n10, n11, n12, n13, n14]

/-- C10 — corrected round-trip statement.  Unknown keys of a document
accepted by `Profile.from_json` are retained and re-emitted unchanged by
`to_json` (lookup of any undeclared key agrees between input and output).
Plain-default (`None`-defaulted) fields are omitted when equal to their
default — `jar` shown — but factory-default fields are NOT: `logging` and
`libraries` are always emitted, even when empty, because their dataclass
default is the `MISSING` sentinel which never compares equal. -/
theorem c10_unknown_field_roundtrip (obj : JObj) (p : Profile)
    (h : Profile.from_json obj = .ok p) :
    (∀ k, k ∉ profileDeclaredKeys →
      dictGet (Profile.to_json p) k = dictGet obj k) ∧
    (p.jar = none → dictGet (Profile.to_json p) "jar" = none) ∧
    dictGet (Profile.to_json p) "logging" = some (Json.obj p.logging) ∧
    dictGet (Profile.to_json p) "libraries" =
      some (Json.arr (p.libraries.map (fun l => Json.obj l.to_json))) := by
  have hex := from_json_extra obj p h
  refine ⟨?_, ?_, to_json_logging p, to_json_libraries p⟩
  · intro k hk
    rw [to_json_undeclared p k hk, hex]
    have hks := hk
    simp only [profileDeclaredKeys, List.mem_cons, List.not_mem_nil, or_false,
      not_or] at hks
    obtain ⟨h1, h2, h3, h4, h5, h6, h7, h8, h9, h10, h11, h12, h13, h14,
      h15⟩ := hks
    unfold undeclaredOf
    rw [dictGet_filter_ne _ _ _ h15, dictGet_filter_ne _ _ _ h14,
      dictGet_filter_ne _ _ _ h13, dictGet_filter_ne _ _ _ h12,
      dictGet_filter_ne _ _ _ h11, dictGet_filter_ne _ _ _ h10,
      dictGet_filter_ne _ _ _ h9, dictGet_filter_ne _ _ _ h8,
      dictGet_filter_ne _ _ _ h7, dictGet_filter_ne _ _ _ h6,
      dictGet_filter_ne _ _ _ h5, dictGet_filter_ne _ _ _ h4,
      dictGet_filter_ne _ _ _ h3, dictGet_filter_ne _ _ _ h2,
      dictGet_filter_ne _ _ _ h1]
  · intro hjar
    rw [to_json_jar_none p hjar, hex]
    unfold undeclaredOf
    rw [dictGet_filter_ne _ _ _ (by decide : ("jar" : String) ≠ "assets"),
      dictGet_filter_ne _ _ _ (by decide : ("jar" : String) ≠ "downloads"),
      dictGet_filter_ne _ _ _ (by decide : ("jar" : String) ≠ "assetIndex"),
      dictGet_filter_ne _ _ _ (by decide : ("jar" : String) ≠ "inheritsFrom")]
    exact dictGet_filter_self _ "jar"

/-- C10 witness: the round-trip theorem applied to the concrete document
`objFx`, whose key `fancy` is undeclared and survives the cycle, whose
`jar` stays omitted, and whose (absent) `logging` is emitted as `{}`. -/
theorem c10_unknown_field_roundtrip_witness :
    dictGet (Profile.to_json ((Profile.from_json objFx).toOption.getD
        nullProfile)) "fancy" = dictGet objFx "fancy" ∧
    dictGet (Profile.to_json ((Profile.from_json objFx).toOption.getD
        nullProfile)) "jar" = none ∧
    dictGet (Profile.to_json ((Profile.from_json objFx).toOption.getD
        nullProfile)) "logging" =
      some (Json.obj ((Profile.from_json objFx).toOption.getD
        nullProfile).logging) :=
  ⟨(c10_unknown_field_roundtrip objFx _ rfl).1 "fancy" (by decide),
   (c10_unknown_field_roundtrip objFx _ rfl).2.1 rfl,
   (c10_unknown_field_roundtrip objFx _ rfl).2.2.1⟩

end Supdate
